import Mathlib

/-
Verification of the sqleibniz lexer and parser (SQLite linter front-end).

This file is a shallow embedding of the lexer (src/lexer/mod.rs), the parser
(src/parser/mod.rs) and their supporting data model (src/types/*, src/error.rs,
src/parser/nodes.rs) into Lean, together with theorems about the embedded code.

Modelling conventions:
- Source bytes (`Vec<u8>`) are modelled as `List Char`; the Rust lexer reads each
  byte with `as char`, so a byte corresponds to the character with the same code.
- `usize` fields become `Nat`; Rust `saturating_sub` and slice-index clamping are
  mirrored explicitly.
- `f64` token payloads are modelled by their exact rational value (`ℚ`): the
  string-to-double conversions of the source are modelled by exact-value parsers
  of the same grammars, so every concrete value equality proved here holds a
  fortiori for the rounded doubles of the source (both sides round the same
  rational).
- The purely presentational fields of `error::Error` (`file`, `msg`, `note`,
  `doc_url`) are not modelled; the embedded `Error` keeps `line`, `rule`, `start`,
  `end` (as `endPos`) and `improved_line`, the fields with observable structure.
- Rust panics (`todo!`, `unwrap` on `None`) are modelled by the `PRes.panic`
  outcome of the parser's result type; running out of step fuel is the distinct
  outcome `PRes.nofuel`.
- Loops are either well-founded recursions on the remaining input length or
  (for the two top-level statement loops and the recursive foreign-key clause)
  fuel-indexed recursions.
-/

namespace Sqleibniz

/-- Rule taxonomy, from src/types/rules.rs. -/
inductive Rule
  | NoContent
  | NoStatements
  | Unimplemented
  | UnknownKeyword
  | BadSqleibnizInstruction
  | SqliteUnsupported
  | Quirk
  | UnterminatedString
  | UnknownCharacter
  | InvalidNumericLiteral
  | InvalidBlob
  | Syntax
  | Semicolon
deriving DecidableEq, Repr

/-- Suggested fix attached to a diagnostic, from src/error.rs (`ImprovedLine`). -/
structure ImprovedLine where
  snippet : String
  start : Nat
deriving DecidableEq, Repr

/-- Diagnostic record, from src/error.rs (`Error`). The presentational string
fields `file`, `msg`, `note` and `doc_url` are not modelled; `end` is renamed
`endPos` (`end` is reserved in Lean). -/
structure Error where
  line : Nat
  rule : Rule
  start : Nat
  endPos : Nat
  improved_line : Option ImprovedLine
deriving DecidableEq, Repr

/-- Modelled from the spec: the `Keyword` enumeration lives in types/keyword.rs,
which is absent from the sources (only its declaration `mod keyword;` and its
uses remain). The spec fixes it as the closed set of SQLite reserved words
(~140 entries); the constructors `SIMPLE`, `PARTIAL` and `STORED` are added
because the parser source references them. -/
inductive Keyword
  | ABORT | ACTION | ADD | AFTER | ALL | ALTER | ALWAYS | ANALYZE | AND | AS
  | ASC | ATTACH | AUTOINCREMENT | BEFORE | BEGIN | BETWEEN | BY | CASCADE
  | CASE | CAST | CHECK | COLLATE | COLUMN | COMMIT | CONFLICT | CONSTRAINT
  | CREATE | CROSS | CURRENT | CURRENT_DATE | CURRENT_TIME | CURRENT_TIMESTAMP
  | DATABASE | DEFAULT | DEFERRABLE | DEFERRED | DELETE | DESC | DETACH
  | DISTINCT | DO | DROP | EACH | ELSE | END | ESCAPE | EXCEPT | EXCLUDE
  | EXCLUSIVE | EXISTS | EXPLAIN | FAIL | FILTER | FIRST | FOLLOWING | FOR
  | FOREIGN | FROM | FULL | GENERATED | GLOB | GROUP | GROUPS | HAVING | IF
  | IGNORE | IMMEDIATE | IN | INDEX | INDEXED | INITIALLY | INNER | INSERT
  | INSTEAD | INTERSECT | INTO | IS | ISNULL | JOIN | KEY | LAST | LEFT | LIKE
  | LIMIT | MATCH | MATERIALIZED | NATURAL | NO | NOT | NOTHING | NOTNULL
  | NULL | NULLS | OF | OFFSET | ON | OR | ORDER | OTHERS | OUTER | OVER
  | PARTIAL | PARTITION | PLAN | PRAGMA | PRECEDING | PRIMARY | QUERY | RAISE
  | RANGE | RECURSIVE | REFERENCES | REGEXP | REINDEX | RELEASE | RENAME
  | REPLACE | RESTRICT | RETURNING | RIGHT | ROLLBACK | ROW | ROWS | SAVEPOINT
  | SELECT | SET | SIMPLE | STORED | TABLE | TEMP | TEMPORARY | THEN | TIES
  | TO | TRANSACTION | TRIGGER | UNBOUNDED | UNION | UNIQUE | UPDATE | USING
  | VACUUM | VALUES | VIEW | VIRTUAL | WHEN | WHERE | WINDOW | WITH | WITHOUT
deriving DecidableEq, Repr

/-- Modelled from the spec: the keyword table of the missing types/keyword.rs,
"a single static mapping from lowercase string to the keyword enumerator". It is
split in chunks only to keep elaboration fast. -/
def keywordTableChunk0 : List (String × Keyword) :=
  [("abort", Keyword.ABORT),
   ("action", Keyword.ACTION),
   ("add", Keyword.ADD),
   ("after", Keyword.AFTER),
   ("all", Keyword.ALL),
   ("alter", Keyword.ALTER),
   ("always", Keyword.ALWAYS),
   ("analyze", Keyword.ANALYZE),
   ("and", Keyword.AND),
   ("as", Keyword.AS),
   ("asc", Keyword.ASC),
   ("attach", Keyword.ATTACH),
   ("autoincrement", Keyword.AUTOINCREMENT),
   ("before", Keyword.BEFORE),
   ("begin", Keyword.BEGIN),
   ("between", Keyword.BETWEEN),
   ("by", Keyword.BY),
   ("cascade", Keyword.CASCADE),
   ("case", Keyword.CASE),
   ("cast", Keyword.CAST)]

def keywordTableChunk1 : List (String × Keyword) :=
  [("check", Keyword.CHECK),
   ("collate", Keyword.COLLATE),
   ("column", Keyword.COLUMN),
   ("commit", Keyword.COMMIT),
   ("conflict", Keyword.CONFLICT),
   ("constraint", Keyword.CONSTRAINT),
   ("create", Keyword.CREATE),
   ("cross", Keyword.CROSS),
   ("current", Keyword.CURRENT),
   ("current_date", Keyword.CURRENT_DATE),
   ("current_time", Keyword.CURRENT_TIME),
   ("current_timestamp", Keyword.CURRENT_TIMESTAMP),
   ("database", Keyword.DATABASE),
   ("default", Keyword.DEFAULT),
   ("deferrable", Keyword.DEFERRABLE),
   ("deferred", Keyword.DEFERRED),
   ("delete", Keyword.DELETE),
   ("desc", Keyword.DESC),
   ("detach", Keyword.DETACH),
   ("distinct", Keyword.DISTINCT)]

def keywordTableChunk2 : List (String × Keyword) :=
  [("do", Keyword.DO),
   ("drop", Keyword.DROP),
   ("each", Keyword.EACH),
   ("else", Keyword.ELSE),
   ("end", Keyword.END),
   ("escape", Keyword.ESCAPE),
   ("except", Keyword.EXCEPT),
   ("exclude", Keyword.EXCLUDE),
   ("exclusive", Keyword.EXCLUSIVE),
   ("exists", Keyword.EXISTS),
   ("explain", Keyword.EXPLAIN),
   ("fail", Keyword.FAIL),
   ("filter", Keyword.FILTER),
   ("first", Keyword.FIRST),
   ("following", Keyword.FOLLOWING),
   ("for", Keyword.FOR),
   ("foreign", Keyword.FOREIGN),
   ("from", Keyword.FROM),
   ("full", Keyword.FULL),
   ("generated", Keyword.GENERATED)]

def keywordTableChunk3 : List (String × Keyword) :=
  [("glob", Keyword.GLOB),
   ("group", Keyword.GROUP),
   ("groups", Keyword.GROUPS),
   ("having", Keyword.HAVING),
   ("if", Keyword.IF),
   ("ignore", Keyword.IGNORE),
   ("immediate", Keyword.IMMEDIATE),
   ("in", Keyword.IN),
   ("index", Keyword.INDEX),
   ("indexed", Keyword.INDEXED),
   ("initially", Keyword.INITIALLY),
   ("inner", Keyword.INNER),
   ("insert", Keyword.INSERT),
   ("instead", Keyword.INSTEAD),
   ("intersect", Keyword.INTERSECT),
   ("into", Keyword.INTO),
   ("is", Keyword.IS),
   ("isnull", Keyword.ISNULL),
   ("join", Keyword.JOIN),
   ("key", Keyword.KEY)]

def keywordTableChunk4 : List (String × Keyword) :=
  [("last", Keyword.LAST),
   ("left", Keyword.LEFT),
   ("like", Keyword.LIKE),
   ("limit", Keyword.LIMIT),
   ("match", Keyword.MATCH),
   ("materialized", Keyword.MATERIALIZED),
   ("natural", Keyword.NATURAL),
   ("no", Keyword.NO),
   ("not", Keyword.NOT),
   ("nothing", Keyword.NOTHING),
   ("notnull", Keyword.NOTNULL),
   ("null", Keyword.NULL),
   ("nulls", Keyword.NULLS),
   ("of", Keyword.OF),
   ("offset", Keyword.OFFSET),
   ("on", Keyword.ON),
   ("or", Keyword.OR),
   ("order", Keyword.ORDER),
   ("others", Keyword.OTHERS),
   ("outer", Keyword.OUTER)]

def keywordTableChunk5 : List (String × Keyword) :=
  [("over", Keyword.OVER),
   ("partial", Keyword.PARTIAL),
   ("partition", Keyword.PARTITION),
   ("plan", Keyword.PLAN),
   ("pragma", Keyword.PRAGMA),
   ("preceding", Keyword.PRECEDING),
   ("primary", Keyword.PRIMARY),
   ("query", Keyword.QUERY),
   ("raise", Keyword.RAISE),
   ("range", Keyword.RANGE),
   ("recursive", Keyword.RECURSIVE),
   ("references", Keyword.REFERENCES),
   ("regexp", Keyword.REGEXP),
   ("reindex", Keyword.REINDEX),
   ("release", Keyword.RELEASE),
   ("rename", Keyword.RENAME),
   ("replace", Keyword.REPLACE),
   ("restrict", Keyword.RESTRICT),
   ("returning", Keyword.RETURNING),
   ("right", Keyword.RIGHT)]

def keywordTableChunk6 : List (String × Keyword) :=
  [("rollback", Keyword.ROLLBACK),
   ("row", Keyword.ROW),
   ("rows", Keyword.ROWS),
   ("savepoint", Keyword.SAVEPOINT),
   ("select", Keyword.SELECT),
   ("set", Keyword.SET),
   ("simple", Keyword.SIMPLE),
   ("stored", Keyword.STORED),
   ("table", Keyword.TABLE),
   ("temp", Keyword.TEMP),
   ("temporary", Keyword.TEMPORARY),
   ("then", Keyword.THEN),
   ("ties", Keyword.TIES),
   ("to", Keyword.TO),
   ("transaction", Keyword.TRANSACTION),
   ("trigger", Keyword.TRIGGER),
   ("unbounded", Keyword.UNBOUNDED),
   ("union", Keyword.UNION),
   ("unique", Keyword.UNIQUE),
   ("update", Keyword.UPDATE)]

def keywordTableChunk7 : List (String × Keyword) :=
  [("using", Keyword.USING),
   ("vacuum", Keyword.VACUUM),
   ("values", Keyword.VALUES),
   ("view", Keyword.VIEW),
   ("virtual", Keyword.VIRTUAL),
   ("when", Keyword.WHEN),
   ("where", Keyword.WHERE),
   ("window", Keyword.WINDOW),
   ("with", Keyword.WITH),
   ("without", Keyword.WITHOUT)]

def keywordTable : List (String × Keyword) :=
  keywordTableChunk0 ++ keywordTableChunk1 ++ keywordTableChunk2 ++ keywordTableChunk3 ++ keywordTableChunk4 ++ keywordTableChunk5 ++ keywordTableChunk6 ++ keywordTableChunk7

/-- Rust `char::to_lowercase` restricted to ASCII letters (the keyword table is
ASCII, so lowercasing of other characters cannot affect a lookup). -/
def asciiToLower (c : Char) : Char :=
  match c with
  | 'A' => 'a' | 'B' => 'b' | 'C' => 'c' | 'D' => 'd' | 'E' => 'e' | 'F' => 'f'
  | 'G' => 'g' | 'H' => 'h' | 'I' => 'i' | 'J' => 'j' | 'K' => 'k' | 'L' => 'l'
  | 'M' => 'm' | 'N' => 'n' | 'O' => 'o' | 'P' => 'p' | 'Q' => 'q' | 'R' => 'r'
  | 'S' => 's' | 'T' => 't' | 'U' => 'u' | 'V' => 'v' | 'W' => 'w' | 'X' => 'x'
  | 'Y' => 'y' | 'Z' => 'z' | other => other

/-- Rust `str::to_lowercase` on a character list. -/
def lowerChars (l : List Char) : List Char :=
  l.map asciiToLower

/-- Modelled from the spec: `Keyword::from_str` of the missing types/keyword.rs,
a case-insensitive lookup in the keyword table. -/
def Keyword.from_str (s : String) : Option Keyword :=
  (keywordTable.find? (fun p => p.1.data = lowerChars s.data)).map (·.2)

/-- Levenshtein distance, from src/lev.rs (`distance`). -/
def lev.distance : List Char → List Char → Nat
  | a, [] => a.length
  | [], b => b.length
  | a0 :: a, b0 :: b =>
    if a0 = b0 then lev.distance a b
    else
      let first := lev.distance a (b0 :: b)
      let second := lev.distance (a0 :: a) b
      let third := lev.distance a b
      1 + min (min first second) third
termination_by a b => a.length + b.length

/-- Modelled from the spec: `Keyword::suggestions` of the missing
types/keyword.rs; the spec fixes it as a keyword-suggestion search with
Levenshtein distance ≤ 2 against the keyword table, case-insensitive. -/
def Keyword.suggestions (name : String) : List String :=
  (keywordTable.map (·.1)).filter
    (fun k => lev.distance (lowerChars name.data) k.data ≤ 2)

/-- An exact decimal number `m * 10 ^ e`: the representation used here for the
`f64` payloads of the source (every number the lexer can produce — a decimal
literal or a 64-bit integer — is such a value, exactly). Kept unnormalized so
that equality of the representation is structural; the rational it denotes is
`Dec.toRat`. -/
structure Dec where
  m : Int
  e : Int
deriving DecidableEq, Repr

/-- Token kind, from src/types/mod.rs (`Type`; renamed, `Type` is reserved in
Lean). `Number` carries the exact decimal value of the source's `f64`. -/
inductive Ty
  | Keyword (k : Keyword)
  | Ident (s : String)
  | Number (value : Dec)
  | String (s : String)
  | Blob (bytes : List Char)
  | Boolean (b : Bool)
  | ParamName (s : String)
  | Param (n : Nat)
  | Dot
  | Asterisk
  | Semicolon
  | Percent
  | Comma
  | Equal
  | Question
  | Colon
  | At
  | Dollar
  | BraceLeft
  | BraceRight
  | BracketLeft
  | BracketRight
  | InstructionExpect
  | Eof
deriving DecidableEq, Repr

/-- Token with its span, from src/types/mod.rs (`Token`); `end` is renamed
`endPos`. -/
structure Token where
  ttype : Ty
  start : Nat
  endPos : Nat
  line : Nat
deriving DecidableEq, Repr

/-- Storage classes, from src/types/storage.rs (`SqliteStorageClass`). -/
inductive SqliteStorageClass
  | Null
  | Integer
  | Real
  | Text
  | Blob
deriving DecidableEq, Repr

/-- Substring containment, from src/types/storage.rs (`str::contains`),
computed on the character lists. -/
def strContains (s sub : String) : Bool :=
  (List.range (s.data.length + 1)).any (fun i => sub.data.isPrefixOf (s.data.drop i))

/-- From src/types/storage.rs: `contains_any`. -/
def containsAny (s : String) (v : List String) : Bool :=
  v.any (fun e => strContains s e)

/-- From src/types/storage.rs: `SqliteStorageClass::from_str` (column
affinity). -/
def SqliteStorageClass.from_str (s : String) : SqliteStorageClass :=
  if containsAny s ["VARCHAR", "CLOB", "TEXT"] then .Text
  else if s.isEmpty || strContains s "BLOB" then .Blob
  else if containsAny s ["REAL", "FLOA", "DOUB"] then .Real
  else if strContains s "INT" then .Integer
  else .Integer

/-- From src/types/storage.rs: `SqliteStorageClass::from_str_strict`. -/
def SqliteStorageClass.from_str_strict (s : String) : Option SqliteStorageClass :=
  match s with
  | "TEXT" => some .Text
  | "BLOB" => some .Blob
  | "REAL" => some .Real
  | "INT" => some .Integer
  | "INTEGER" => some .Integer
  | _ => if strContains s "VARCHAR" then some .Text else none

/-! ## Exact-value models of the Rust std conversions used by the lexer -/

/-- Rust `char::is_ascii_digit`. -/
def isAsciiDigit (c : Char) : Bool := '0' ≤ c && c ≤ '9'

/-- Rust `char::is_ascii_hexdigit`. -/
def isAsciiHexdigit (c : Char) : Bool :=
  isAsciiDigit c || ('a' ≤ c && c ≤ 'f') || ('A' ≤ c && c ≤ 'F')

/-- Rust `char::is_whitespace` (Unicode `White_Space`), restricted to the code
points a byte can produce. -/
def rustIsWhitespace (c : Char) : Bool :=
  c = ' ' || c = '\t' || c = '\n' || c = '\r' ||
  c = '\x0b' || c = '\x0c' || c = '\x85' || c = '\xa0'

/-- Decimal value of a digit list. -/
def digitsVal (ds : List Char) : Nat :=
  ds.foldl (fun a c => a * 10 + (c.toNat - '0'.toNat)) 0

/-- `10^e` for a signed exponent. -/
def pow10 (e : Int) : ℚ :=
  if 0 ≤ e then (10 : ℚ) ^ e.toNat else 1 / (10 : ℚ) ^ (-e).toNat

/-- The rational value an exact decimal denotes. -/
def Dec.toRat (d : Dec) : ℚ :=
  (d.m : ℚ) * pow10 d.e

/-- The exponent clause of the Rust `f64::from_str` grammar:
either nothing remains, or `('e'|'E') Sign? Digit+` consumes the whole rest. -/
def parseExp : List Char → Option Int
  | [] => some 0
  | c :: r =>
    if c = 'e' || c = 'E' then
      let (esgn, r1) : Int × List Char :=
        match r with
        | '+' :: rr => (1, rr)
        | '-' :: rr => (-1, rr)
        | rr => (1, rr)
      let ds := r1.takeWhile isAsciiDigit
      let rest := r1.dropWhile isAsciiDigit
      if ds.isEmpty || !rest.isEmpty then none
      else some (esgn * (digitsVal ds : Int))
    else none

/-- Exact-value model of Rust `f64::from_str` on the lexer's numeric strings:
the grammar `Sign? (Digit+ ('.' Digit*)? Exp? | '.' Digit+ Exp?)`, evaluated
exactly (as `mantissa * 10 ^ exponent`) instead of rounding to a double, so
every value equality proved about it holds a fortiori for the rounded doubles
of the source. The `inf`/`infinity`/`nan` alternatives of the Rust grammar are
not modelled: the lexer's number scanner only ever passes strings over
`[0-9a-fA-F+-.]`, which cannot spell them. `none` corresponds exactly to the
`Err` cases of the source (Rust overflow yields `Ok(inf)`, not `Err`, so
`none` is purely syntactic there as well). -/
def parseF64Exact (s : String) : Option Dec :=
  let (sgn, cs1) : Int × List Char :=
    match s.data with
    | '+' :: r => (1, r)
    | '-' :: r => (-1, r)
    | r => (1, r)
  match cs1 with
  | '.' :: r =>
    let ds := r.takeWhile isAsciiDigit
    let rest := r.dropWhile isAsciiDigit
    if ds.isEmpty then none
    else (parseExp rest).map fun e =>
      { m := sgn * (digitsVal ds : Int), e := e - ds.length }
  | _ =>
    let ds := cs1.takeWhile isAsciiDigit
    let rest := cs1.dropWhile isAsciiDigit
    if ds.isEmpty then none
    else
      match rest with
      | '.' :: r2 =>
        let fs := r2.takeWhile isAsciiDigit
        let rest2 := r2.dropWhile isAsciiDigit
        (parseExp rest2).map fun e =>
          { m := sgn * ((digitsVal ds : Int) * 10 ^ fs.length + (digitsVal fs : Int)),
            e := e - fs.length }
      | _ => (parseExp rest).map fun e => { m := sgn * (digitsVal ds : Int), e }

/-- Hexadecimal digit value. -/
def hexDigitVal (c : Char) : Option Nat :=
  if isAsciiDigit c then some (c.toNat - 48)
  else if 'a' ≤ c && c ≤ 'f' then some (10 + (c.toNat - 97))
  else if 'A' ≤ c && c ≤ 'F' then some (10 + (c.toNat - 65))
  else none

/-- Model of Rust `i64::from_str_radix(s, 16)`: optional sign, then one or more
hexadecimal digits; `none` on empty digits, an invalid digit, or overflow past
the two's-complement 64-bit range. -/
def i64FromStrRadix16 (s : String) : Option Int :=
  let (neg, ds) : Bool × List Char :=
    match s.data with
    | '+' :: r => (false, r)
    | '-' :: r => (true, r)
    | r => (false, r)
  if ds.isEmpty then none
  else
    (ds.foldl (fun acc c => acc.bind fun n => (hexDigitVal c).map fun d => n * 16 + d)
        (some 0)).bind
      fun n =>
        if neg then if (n : Int) ≤ 2 ^ 63 then some (-(n : Int)) else none
        else if (n : Int) ≤ 2 ^ 63 - 1 then some (n : Int) else none

/-! ## The lexer, from src/lexer/mod.rs -/

namespace Lexer

/-- The position state of `struct Lexer`: `pos`, `line`, `line_pos` (the `name`,
`source` and `errors` fields are threaded explicitly). -/
structure LexState where
  pos : Nat
  line : Nat
  linePos : Nat
deriving DecidableEq, Repr

/-- A single `Lexer::advance` over the character `c` at the current position
(`advance` reads only the current character; `none` past the end behaves like
any non-newline). -/
def advanceC (c : Char) (st : LexState) : LexState :=
  if c = '\n' then { pos := st.pos + 1, line := st.line + 1, linePos := 0 }
  else { pos := st.pos + 1, line := st.line, linePos := st.linePos + 1 }

/-- `Lexer::advance`. -/
def advance (src : List Char) (st : LexState) : LexState :=
  advanceC ((src[st.pos]?).getD ' ') st

/-- `Lexer::err` (the modelled fields). -/
def err (st : LexState) (start : Nat) (rule : Rule) : Error :=
  { line := st.line, rule, start, endPos := st.linePos, improved_line := none }

/-- `Lexer::is_ident`. -/
def is_ident (c : Char) : Bool :=
  ('a' ≤ c && c ≤ 'z') || ('A' ≤ c && c ≤ 'Z') || c = '_' || ('0' ≤ c && c ≤ '9')

/-- `Lexer::is_sqlite_num` (a predicate on the current character). -/
def is_sqlite_num (c : Char) : Bool :=
  c = '+' || c = '-' || c = '_' || c = '.' ||
  ('a' ≤ c && c ≤ 'f') || ('A' ≤ c && c ≤ 'F') || ('0' ≤ c && c ≤ '9')

/-- `Lexer::single`. -/
def single (st : LexState) (t : Ty) : Token :=
  { ttype := t, start := st.linePos, endPos := st.linePos, line := st.line }

/-- Rust `source.get(a..b).unwrap_or_default()`. -/
def slice (src : List Char) (a b : Nat) : List Char :=
  if a ≤ b ∧ b ≤ src.length then (src.drop a).take (b - a) else []

/-
All lexer loops below recurse structurally on the remaining input
`l = src.drop st.pos` (so that they compute definitionally); the head of `l` is
the lexer's current character and an empty `l` is `is_eof()`.
-/

/-- The loop of `Lexer::string`; `start`/`lineStart` are the values captured on
entry. The empty-list case is the source's unreachable "Impossible case" error
(the loop guard `!is_eof()` failing). -/
def stringLoopAux (src : List Char) (start lineStart : Nat) :
    List Char → LexState → Except Error Token × LexState
  | [], st => (.error (err st st.linePos .Unimplemented), st)
  | c :: rest, st =>
    let e := st.linePos
    let ln := st.line
    let st1 := advanceC c st
    if rest.isEmpty || rest.head? = some '\n' then
      (.error { line := ln, rule := .UnterminatedString, start := lineStart,
                endPos := st1.linePos + 1, improved_line := some ⟨"'", st1.linePos + 1⟩ }, st1)
    else if rest.head? = some '\'' then
      (.ok { ttype := .String (String.mk (slice src (start + 1) st1.pos)),
             start := lineStart, endPos := e + 2, line := st1.line }, st1)
    else stringLoopAux src start lineStart rest st1

/-- `Lexer::string`. -/
def string (src : List Char) (st : LexState) : Except Error Token × LexState :=
  stringLoopAux src st.pos st.linePos (src.drop st.pos) st

/-- The block-comment loop of `Lexer::run`'s `/` branch:
`while !is_eof { advance; if is('*') && next_is('/') break }`. -/
def blockCommentLoopAux : List Char → LexState → LexState
  | [], st => st
  | c :: rest, st =>
    let st1 := advanceC c st
    if rest[0]? = some '*' && rest[1]? = some '/' then st1
    else blockCommentLoopAux rest st1

/-- Entry to the block-comment loop at the current position. -/
def blockCommentLoop (src : List Char) (st : LexState) : LexState :=
  blockCommentLoopAux (src.drop st.pos) st

/-- The directive scanner of the `-` branch:
`while !is_eof && !cur().is_whitespace() { advance }`. -/
def directiveScanAux : List Char → LexState → LexState
  | [], st => st
  | c :: rest, st =>
    if rustIsWhitespace c then st else directiveScanAux rest (advanceC c st)

/-- Entry to the directive scanner at the current position. -/
def directiveScan (src : List Char) (st : LexState) : LexState :=
  directiveScanAux (src.drop st.pos) st

/-- The rest-of-line skip of the `-` branch:
`while !is_eof && !is('\n') { advance }`. -/
def skipLineAux : List Char → LexState → LexState
  | [], st => st
  | c :: rest, st =>
    if c = '\n' then st else skipLineAux rest (advanceC c st)

/-- Entry to the rest-of-line skip at the current position. -/
def skipLine (src : List Char) (st : LexState) : LexState :=
  skipLineAux (src.drop st.pos) st

/-- Rust `str::trim` (both ends, whitespace) on a character list. -/
def trimChars (l : List Char) : List Char :=
  ((l.dropWhile rustIsWhitespace).reverse.dropWhile rustIsWhitespace).reverse

/-- The comment-body loop of the `-` branch of `Lexer::run` (entered after the
two `-` are consumed). It yields at most one token (`InstructionExpect`) and at
most one error (`BadSqleibnizInstruction`), plus the state it stops in. The
`starts_with`/`trim`/`==` tests of the source run on the instruction's
characters. -/
def lineCommentLoopAux (src : List Char) :
    List Char → LexState → Option Token × Option Error × LexState
  | [], st => (none, none, st)
  | c :: rest, st =>
    if c = '\n' then (none, none, st)
    else if c = '@' then
      let st1 := advanceC c st
      let start := st1.pos
      let st2 := directiveScanAux rest st1
      let instruction := slice src start st2.pos
      if "sqleibniz::".data.isPrefixOf instruction then
        let f := trimChars (instruction.drop "sqleibniz::".data.length)
        if f = "expect".data then
          (some (single st2 Ty.InstructionExpect), none, skipLine src st2)
        else
          (none, some { line := st2.line, rule := .BadSqleibnizInstruction,
                        start := start - 1, endPos := st2.pos, improved_line := none },
           skipLine src st2)
      else
        (none, some { line := st2.line, rule := .BadSqleibnizInstruction,
                      start := start - 1, endPos := st2.pos, improved_line := none },
         skipLine src st2)
    else lineCommentLoopAux src rest (advanceC c st)

/-- Entry to the comment-body loop at the current position. -/
def lineCommentLoop (src : List Char) (st : LexState) :
    Option Token × Option Error × LexState :=
  lineCommentLoopAux src (src.drop st.pos) st

/-- The number scanner: `while !is_eof && is_sqlite_num { advance }`. -/
def numScanAux : List Char → LexState → LexState
  | [], st => st
  | c :: rest, st =>
    if is_sqlite_num c then numScanAux rest (advanceC c st) else st

/-- Entry to the number scanner at the current position. -/
def numScan (src : List Char) (st : LexState) : LexState :=
  numScanAux (src.drop st.pos) st

/-- The identifier scanner: `while !is_eof && is_ident(cur) { advance }`. -/
def identScanAux : List Char → LexState → LexState
  | [], st => st
  | c :: rest, st =>
    if is_ident c then identScanAux rest (advanceC c st) else st

/-- Entry to the identifier scanner at the current position. -/
def identScan (src : List Char) (st : LexState) : LexState :=
  identScanAux (src.drop st.pos) st

/-- The `-` branch of the dispatch loop of `Lexer::run` (current character is
`'-'`): either a `--` comment body, or the lone-`-` Syntax error that `break`s
out of the loop. -/
def lexStepComment (src : List Char) (st : LexState) :
    List Token × List Error × LexState × Bool :=
  let st1 := advance src st
  if src[st1.pos]? = some '-' then
    let st2 := advance src st1
    match lineCommentLoop src st2 with
    | (tok?, err?, st3) => (tok?.toList, err?.toList, advance src st3, true)
  else
    ([], [{ line := st1.line, rule := .Syntax, start := st1.linePos,
            endPos := st1.linePos, improved_line := none }], st1, false)

/-- The `'` branch of the dispatch loop of `Lexer::run`: a string literal. -/
def lexStepString (src : List Char) (st : LexState) :
    List Token × List Error × LexState × Bool :=
  match string src st with
  | (.ok strTok, st1) => ([strTok], [], advance src st1, true)
  | (.error e, st1) => ([], [e], advance src st1, true)

/-- The number branch of the dispatch loop of `Lexer::run` (current character
`c` is a digit or `.`): a `Dot` token, or a hexadecimal or decimal literal
(both of which `continue`, skipping the loop's bottom `advance`). -/
def lexStepNumber (src : List Char) (st : LexState) (c : Char) :
    List Token × List Error × LexState × Bool :=
  if c = '.' && !(src[st.pos + 1]? = some 'e' || src[st.pos + 1]? = some 'E')
      && !(match src[st.pos + 1]? with
           | some c2 => c2 = '_' || isAsciiDigit c2
           | none => false) then
    ([{ ttype := .Dot, line := st.line, start := st.linePos, endPos := st.linePos }],
     [], advance src st, true)
  else
    let lineStart := st.linePos
    let (isHex, st1) :=
      if c = '0' && (src[st.pos + 1]? = some 'x' || src[st.pos + 1]? = some 'X')
      then (true, advance src (advance src st)) else (false, st)
    let start := st1.pos
    let st2 := numScan src st1
    let str := String.mk ((slice src start st2.pos).filter (fun ch => ch ≠ '_'))
    if isHex then
      match i64FromStrRadix16 str with
      | some n =>
        ([{ ttype := .Number { m := n, e := 0 }, line := st2.line,
            start := lineStart, endPos := st2.linePos }], [], st2, true)
      | none =>
        ([], [{ line := st2.line, rule := .InvalidNumericLiteral,
                start := lineStart, endPos := st2.linePos, improved_line := none }],
         st2, true)
    else
      match parseF64Exact str with
      | some q =>
        ([{ ttype := .Number q, line := st2.line,
            start := lineStart, endPos := st2.linePos }], [], st2, true)
      | none =>
        ([], [{ line := st2.line, rule := .InvalidNumericLiteral,
                start := lineStart, endPos := st2.linePos, improved_line := none }],
         st2, true)

/-- The `X`/`x` branch of the dispatch loop of `Lexer::run`: a blob literal.
The bad-hex case `break`s out of the whole loop. -/
def lexStepBlob (src : List Char) (st : LexState) :
    List Token × List Error × LexState × Bool :=
  let lineStart := st.linePos
  let ln := st.line
  if src[st.pos + 1]? = some '\'' then
    let st1 := advance src st
    match string src st1 with
    | (.ok strTok, st2) =>
      match strTok.ttype with
      | .String s =>
        match s.data.findIdx? (fun ch => !(isAsciiHexdigit ch)) with
        | some idx =>
          ([], [{ line := st2.line, rule := .InvalidBlob,
                  start := lineStart + 2 + idx, endPos := lineStart + 2 + idx,
                  improved_line := none }], st2, false)
        | none =>
          ([{ ttype := .Blob s.data, line := ln,
              start := strTok.start, endPos := strTok.endPos }], [],
           advance src st2, true)
      | _ => ([], [], advance src st2, true)
    | (.error _, st2) =>
      ([], [{ line := ln, rule := .InvalidBlob, start := lineStart,
              endPos := st2.linePos, improved_line := none }],
       advance src st2, true)
  else
    ([], [{ line := st.line, rule := .InvalidBlob, start := st.linePos,
            endPos := st.linePos, improved_line := none }], advance src st, true)

/-- The identifier/keyword branch of the dispatch loop of `Lexer::run` (which
`continue`s, skipping the loop's bottom `advance`). -/
def lexStepIdent (src : List Char) (st : LexState) :
    List Token × List Error × LexState × Bool :=
  let start := st.pos
  let lineStart := st.linePos
  let st1 := identScan src st
  let ident := String.mk (slice src start st1.pos)
  let t : Ty :=
    match Keyword.from_str ident with
    | some kw => .Keyword kw
    | none =>
      if lowerChars ident.data = "true".data || lowerChars ident.data = "false".data
      then .Boolean (lowerChars ident.data = "true".data) else .Ident ident
  ([{ ttype := t, line := st1.line, start := lineStart, endPos := st1.linePos }],
   [], st1, true)

/-- One iteration of the dispatch loop of `Lexer::run` (the body of its
`while !self.is_eof()`), given the current character. Returns the tokens and
errors the iteration pushes, the state after the iteration, and whether the
loop continues (`false` models the source's `break`s out of the loop; the
`none` current-character case cannot arise from `lexLoopF`, which only calls
`lexStep` below the input length, and stops). -/
def lexStep (src : List Char) (st : LexState) : List Token × List Error × LexState × Bool :=
  match src[st.pos]? with
  | none => ([], [], st, false)
  | some c =>
    -- skipping whitespace
    if c = '\t' || c = '\r' || c = ' ' || c = '\n' then
      ([], [], advance src st, true)
    -- block comments
    else if c = '/' then
      let st1 := if src[st.pos + 1]? = some '*' then blockCommentLoop src st else st
      ([], [], advance src st1, true)
    -- line comments and sqleibniz instructions
    else if c = '-' then lexStepComment src st
    -- string literals
    else if c = '\'' then lexStepString src st
    -- single-character symbols
    else if c = '*' then ([single st .Asterisk], [], advance src st, true)
    else if c = ';' then ([single st .Semicolon], [], advance src st, true)
    else if c = ',' then ([single st .Comma], [], advance src st, true)
    else if c = '%' then ([single st .Percent], [], advance src st, true)
    else if c = '=' then ([single st .Equal], [], advance src st, true)
    else if c = '@' then ([single st .At], [], advance src st, true)
    else if c = ':' then ([single st .Colon], [], advance src st, true)
    else if c = '$' then ([single st .Dollar], [], advance src st, true)
    else if c = '?' then ([single st .Question], [], advance src st, true)
    else if c = '(' then ([single st .BraceLeft], [], advance src st, true)
    else if c = ')' then ([single st .BraceRight], [], advance src st, true)
    else if c = '[' then ([single st .BracketLeft], [], advance src st, true)
    else if c = ']' then ([single st .BracketRight], [], advance src st, true)
    -- numbers
    else if isAsciiDigit c || c = '.' then lexStepNumber src st c
    -- blob literals
    else if c = 'X' || c = 'x' then lexStepBlob src st
    -- identifiers / keywords
    else if ('a' ≤ c && c ≤ 'z') || ('A' ≤ c && c ≤ 'Z') || c = '_' then
      lexStepIdent src st
    -- unknown characters
    else
      ([], [{ line := st.line, rule := .UnknownCharacter, start := st.linePos,
              endPos := st.linePos, improved_line := none }], advance src st, true)

/-- The dispatch loop of `Lexer::run`, fuel-indexed: while not at the end,
run one `lexStep` and recurse unless it broke out. The result lists are the
tokens and errors produced from the given state onward, in encounter order,
together with the final state; `none` is fuel exhaustion (the fuel-sufficiency
theorem shows `src.length + 1` iterations always suffice). -/
def lexLoopF (src : List Char) : Nat → LexState → Option (List Token × List Error × LexState)
  | 0, _ => none
  | fuel + 1, st =>
    if st.pos < src.length then
      match lexStep src st with
      | (ts, es, st1, true) =>
        match lexLoopF src fuel st1 with
        | some (toks, errs, stf) => some (ts ++ toks, es ++ errs, stf)
        | none => none
      | (ts, es, st1, false) => some (ts, es, st1)
    else some ([], [], st)

/-- `Lexer::run`. The `none` fall-back of the match is unreachable (the
fuel-sufficiency theorem); `(toks, errs)` are the lexer's return value and its
`errors` field. -/
def run (src : List Char) : List Token × List Error :=
  if src.isEmpty then
    ([], [{ line := 0, rule := .NoContent, start := 0, endPos := 0, improved_line := none }])
  else
    match lexLoopF src (src.length + 1) ⟨0, 0, 0⟩ with
    | some (toks, errs, stf) =>
      if toks.isEmpty && errs.isEmpty then
        ([], [{ line := stf.line, rule := .NoStatements, start := 0, endPos := stf.linePos,
                improved_line := none }])
      else (toks, errs)
    | none => ([], [])

end Lexer


/-! ## AST nodes, from src/parser/nodes.rs -/

namespace nodes

/-- `SchemaTableContainer`. -/
inductive SchemaTableContainer
  | SchemaAndTable (schema table : String)
  | Table (name : String)
deriving DecidableEq, Repr

/-- `ForeignKeyAction`. -/
inductive ForeignKeyAction
  | Cascade | Restrict | NoAction | SetNull | SetDefault
deriving DecidableEq, Repr

/-- `ForeignKeyMatch`. -/
inductive ForeignKeyMatch
  | Simple | Full | Partial
deriving DecidableEq, Repr

/-- `ForeignKeyClause`. -/
structure ForeignKeyClause where
  foreign_table : String
  references_columns : List String
  on_delete : Option ForeignKeyAction
  on_update : Option ForeignKeyAction
  match_type : Option ForeignKeyMatch
  deferrable : Bool
  initially_deferred : Bool
deriving DecidableEq, Repr

/-- The `Literal` node (`node!(Literal, …)`: only the predefined token field). -/
structure Literal where
  t : Token
deriving DecidableEq, Repr

/-- The `BindParameter` node. The source types `counter` as `Option<Box<dyn
Node>>`, but the only value ever stored there is the `Literal` node returned by
`literal_value`, which is how it is typed here. -/
structure BindParameter where
  t : Token
  counter : Option Literal
  name : Option String
deriving DecidableEq, Repr

/-- The `Expr` node. -/
structure Expr where
  t : Token
  literal : Option Token
  bind : Option BindParameter
  schema : Option String
  table : Option String
  column : Option String
deriving DecidableEq, Repr

/-- `ColumnConstraint`. -/
inductive ColumnConstraint
  | PrimaryKey (asc_desc : Option Keyword) (on_conflict : Option Keyword)
      (autoincrement : Bool)
  | NotNull (on_conflict : Option Keyword)
  | Unique (on_conflict : Option Keyword)
  | Check (e : Expr)
  | Default (expr : Option Expr) (literal : Option Literal)
  | Collate (collation_name : String)
  | Generated (expr : Expr) (stored_virtual : Option Keyword)
  | As (expr : Expr) (stored_virtual : Option Keyword)
  | ForeignKey (clause : ForeignKeyClause)
deriving DecidableEq, Repr

/-- The `ColumnDef` node. -/
structure ColumnDef where
  t : Token
  name : String
  type_name : Option SqliteStorageClass
  constraints : List ColumnConstraint
deriving DecidableEq, Repr

/-- The `Alter` node. -/
structure Alter where
  t : Token
  target : SchemaTableContainer
  rename_to : Option String
  rename_column_target : Option String
  new_column_name : Option String
  add_column : Option ColumnDef
  drop_column : Option String
deriving DecidableEq, Repr

/-- Modelled from the spec: the `PragmaInvocation` type is referenced by the
parser (`nodes::PragmaInvocation::{Query, Assign, Call}`) but its definition is
absent from the sources; the spec fixes it as
`invocation ∈ {Query, Assign(value), Call(value)}`. -/
inductive PragmaInvocation
  | Query
  | Assign (value : Token)
  | Call (value : Token)
deriving DecidableEq, Repr

/-- Modelled from the spec: the `Pragma` node is referenced by the parser but
its definition is absent from the sources; the spec fixes its payload as
`Pragma(name SchemaTable, invocation)` plus the predefined token field. -/
structure Pragma where
  t : Token
  name : SchemaTableContainer
  invocation : PragmaInvocation
deriving DecidableEq, Repr

/-- The statement nodes the parser can return, one constructor per `node!`
struct (the source's `Box<dyn Node>` over those structs). Every constructor's
first token argument is the node's predefined `t` field. -/
inductive Node
  | Explain (t : Token) (child : Node)
  | Vacuum (t : Token) (schema_name : Option Token) (filename : Option Token)
  | Begin (t : Token) (transaction_kind : Option Keyword)
  | Commit (t : Token)
  | Rollback (t : Token) (save_point : Option String)
  | Detach (t : Token) (schema_name : String)
  | Analyze (t : Token) (target : Option SchemaTableContainer)
  | Reindex (t : Token) (target : Option SchemaTableContainer)
  | Drop (t : Token) (ttype : Keyword) (if_exists : Bool)
      (argument : SchemaTableContainer)
  | Savepoint (t : Token) (savepoint_name : String)
  | Release (t : Token) (savepoint_name : String)
  | Attach (t : Token) (schema_name : String) (expr : Expr)
  | Alter (a : Alter)
  | Pragma (p : Pragma)
deriving DecidableEq, Repr

end nodes

/-! ## The parser, from src/parser/mod.rs -/

namespace Parser

/-- The mutable state of `struct Parser`: `pos` and the accumulated `errors`
(the token list and file name are threaded as fixed arguments; the name only
feeds the dropped `file` field). -/
structure PSt where
  pos : Nat
  errors : List Error
deriving DecidableEq, Repr

/-- Outcome of a parser function: normal return (`ok`), a Rust panic
(`todo!`/`unwrap`), or fuel exhaustion of the embedding. -/
inductive PRes (α : Type)
  | ok (a : α) (s : PSt)
  | panic (msg : String)
  | nofuel
deriving DecidableEq, Repr

/-- `Parser::cur`: the current token, or the synthetic `Eof` token past the
end. -/
def cur (tokens : List Token) (s : PSt) : Token :=
  (tokens[s.pos]?).getD { ttype := .Eof, start := 0, endPos := 0, line := 0 }

/-- `Parser::err` (the modelled fields), located at the given token. -/
def errT (t : Token) (rule : Rule) : Error :=
  { line := t.line, rule, start := t.start, endPos := t.endPos, improved_line := none }

/-- `Parser::push_err` / `self.errors.push(err)`. -/
def pushErr (s : PSt) (e : Error) : PSt :=
  { s with errors := s.errors ++ [e] }

/-- `Parser::advance`: `pos += 1` unless already at the end. -/
def advance (tokens : List Token) (s : PSt) : PSt :=
  if tokens.length ≤ s.pos then s else { s with pos := s.pos + 1 }

/-- `Parser::next_is`. -/
def next_is (tokens : List Token) (s : PSt) (t : Ty) : Bool :=
  match tokens[s.pos + 1]? with
  | some tok => tok.ttype = t
  | none => false

/-- `Parser::consume`: on mismatch push a Syntax diagnostic (rewritten to rule
`Semicolon` with an inserted-";" fix when a semicolon was wanted); advance
either way. -/
def consume (tokens : List Token) (t : Ty) (s : PSt) : PSt :=
  if (cur tokens s).ttype = t then advance tokens s
  else
    let c := cur tokens s
    let base := errT c .Syntax
    let e :=
      if t = Ty.Semicolon then
        { base with rule := Rule.Semicolon, improved_line := some ⟨";", c.endPos⟩ }
      else base
    advance tokens (pushErr s e)

/-- `Parser::consume_keyword`. -/
def consume_keyword (tokens : List Token) (k : Keyword) (s : PSt) : PSt :=
  consume tokens (.Keyword k) s

/-- `Parser::expect_end` (its `Option<()>` return is always `None` and unused;
only the state matters). -/
def expect_end (tokens : List Token) (s : PSt) : PSt :=
  if (cur tokens s).ttype = Ty.Semicolon then s
  else advance tokens (pushErr s (errT (cur tokens s) .Syntax))

/-- `Parser::consume_ident` (the `doc`/`expected_ident_name` parameters only
feed dropped message fields). -/
def consume_ident (tokens : List Token) (s : PSt) : Option String × PSt :=
  match (cur tokens s).ttype with
  | .Ident i => (some i, advance tokens s)
  | _ => (none, advance tokens (pushErr s (errT (cur tokens s) .Syntax)))

/-- The loop of `Parser::skip_until_semicolon_or_eof`, structural on the
remaining token suffix `tokens.drop s.pos` (the head is the current token; its
advance step is `advance` specialized to `pos < tokens.length`). -/
def skipUntilAux : List Token → PSt → PSt
  | [], s => s
  | tok :: rest, s =>
    if tok.ttype = Ty.Semicolon then s
    else skipUntilAux rest { s with pos := s.pos + 1 }

/-- `Parser::skip_until_semicolon_or_eof`. -/
def skip_until_semicolon_or_eof (tokens : List Token) (s : PSt) : PSt :=
  skipUntilAux (tokens.drop s.pos) s

/-- `Parser::schema_table_container` (the `target_name` argument only selects
dropped message text). -/
def schema_table_container (tokens : List Token) (_target_name : Option String)
    (s : PSt) : Option nodes.SchemaTableContainer × PSt :=
  match (cur tokens s).ttype with
  | .Ident schema =>
    if next_is tokens s .Dot then
      let s1 := advance tokens (advance tokens s)
      match (cur tokens s1).ttype with
      | .Ident table => (some (.SchemaAndTable schema table), advance tokens s1)
      | .String table => (some (.SchemaAndTable schema table), advance tokens s1)
      | _ =>
        -- both the keyword and the catch-all arm push a Syntax error here
        (none, advance tokens (pushErr s1 (errT (cur tokens s1) .Syntax)))
    else (some (.Table schema), advance tokens s)
  | .String table_name => (some (.Table table_name), advance tokens s)
  | _ => (none, advance tokens (pushErr s (errT (cur tokens s) .Syntax)))

/-- `Parser::conflict_clause`. -/
def conflict_clause (tokens : List Token) (s : PSt) : Option Keyword × PSt :=
  if (cur tokens s).ttype = Ty.Keyword .ON then
    let s1 := advance tokens s
    let s2 := consume_keyword tokens .CONFLICT s1
    match (cur tokens s2).ttype with
    | .Keyword .ROLLBACK => (some .ROLLBACK, advance tokens s2)
    | .Keyword .ABORT => (some .ABORT, advance tokens s2)
    | .Keyword .FAIL => (some .FAIL, advance tokens s2)
    | .Keyword .IGNORE => (some .IGNORE, advance tokens s2)
    | .Keyword .REPLACE => (some .REPLACE, advance tokens s2)
    | _ => (none, advance tokens (pushErr s2 (errT (cur tokens s2) .Syntax)))
  else (none, s)

/-- `Parser::literal_value`; the returned node is always a `Literal`. -/
def literal_value (tokens : List Token) (s : PSt) : Option nodes.Literal × PSt :=
  let c := cur tokens s
  match c.ttype with
  | .String _ | .Number _ | .Blob _ | .Keyword .NULL | .Boolean _
  | .Keyword .CURRENT_TIME | .Keyword .CURRENT_DATE | .Keyword .CURRENT_TIMESTAMP =>
    (some ⟨c⟩, advance tokens s)
  | _ => (none, advance tokens (pushErr s (errT c .Syntax)))

/-- `Parser::expr`. The `Ident` atom reaches the source's `todo!` macros, which
panic. -/
def expr (tokens : List Token) (s : PSt) : PRes (Option nodes.Expr) :=
  let t := cur tokens s
  match t.ttype with
  | .String _ | .Number _ | .Blob _ | .Keyword .NULL | .Boolean _
  | .Keyword .CURRENT_TIME | .Keyword .CURRENT_DATE | .Keyword .CURRENT_TIMESTAMP =>
    let (lit, s1) := literal_value tokens s
    .ok (some { t, literal := lit.map (·.t), bind := none, schema := none,
                table := none, column := none }) s1
  | .Question =>
    let s1 := advance tokens s
    match (cur tokens s1).ttype with
    | .Number _ =>
      let (lit, s2) := literal_value tokens s1
      .ok (some { t, literal := none, bind := some { t, counter := lit, name := none },
                  schema := none, table := none, column := none }) s2
    | _ =>
      .ok (some { t, literal := none, bind := some { t, counter := none, name := none },
                  schema := none, table := none, column := none }) s1
  | .Colon | .At | .Dollar =>
    let s1 := advance tokens s
    match (cur tokens s1).ttype with
    | .Ident ident =>
      .ok (some { t, literal := none,
                  bind := some { t, counter := none, name := some ident },
                  schema := none, table := none, column := none }) (advance tokens s1)
    | _ => .ok none (advance tokens (pushErr s1 (errT t .Syntax)))
  | .Ident _ =>
    if next_is tokens s .BraceLeft then
      .panic "function-name(function-arguments) [filter-clause] [over-clause]"
    else .panic "[schema-name.][table-name.]<column-name>"
  | _ => .ok none (advance tokens (pushErr s (errT t .Syntax)))

/-- `Parser::foreign_key_clause_on_and_match`, fuel-indexed (it recurses after
each `ON …`/`MATCH …` group). The unhandled `MATCH` argument reaches the
source's `todo!`. -/
def foreign_key_clause_on_and_match (tokens : List Token) :
    Nat → nodes.ForeignKeyClause → PSt → PRes nodes.ForeignKeyClause
  | 0, _, _ => .nofuel
  | fuel + 1, fk, s =>
    if (cur tokens s).ttype = Ty.Keyword .ON then
      let s1 := advance tokens s
      let (is_delete, s2) :=
        match (cur tokens s1).ttype with
        | .Keyword .DELETE => (true, s1)
        | .Keyword .UPDATE => (false, s1)
        | _ => (false, pushErr s1 (errT (cur tokens s1) .Syntax))
      let s3 := advance tokens s2
      let (action, s4) :=
        match (cur tokens s3).ttype with
        | .Keyword .CASCADE => (some nodes.ForeignKeyAction.Cascade, advance tokens s3)
        | .Keyword .RESTRICT => (some nodes.ForeignKeyAction.Restrict, advance tokens s3)
        | .Keyword .NO =>
          (some nodes.ForeignKeyAction.NoAction,
           consume_keyword tokens .ACTION (advance tokens s3))
        | .Keyword .SET =>
          let s4 := advance tokens s3
          let (a, s5) :=
            if (cur tokens s4).ttype = Ty.Keyword .NULL then
              (nodes.ForeignKeyAction.SetNull, s4)
            else (nodes.ForeignKeyAction.SetDefault, consume_keyword tokens .DEFAULT s4)
          (some a, advance tokens s5)
        | _ => (none, advance tokens (pushErr s3 (errT (cur tokens s3) .Syntax)))
      let fk1 := if is_delete then { fk with on_delete := action }
                 else { fk with on_update := action }
      foreign_key_clause_on_and_match tokens fuel fk1 s4
    else if (cur tokens s).ttype = Ty.Keyword .MATCH then
      let s1 := advance tokens s
      match (cur tokens s1).ttype with
      | .Keyword .FULL =>
        foreign_key_clause_on_and_match tokens fuel
          { fk with match_type := some .Full } (advance tokens s1)
      | .Keyword .PARTIAL =>
        foreign_key_clause_on_and_match tokens fuel
          { fk with match_type := some .Partial } (advance tokens s1)
      | .Keyword .SIMPLE =>
        foreign_key_clause_on_and_match tokens fuel
          { fk with match_type := some .Simple } (advance tokens s1)
      | _ => .panic "error handling MATCH <kind>"
    else .ok fk s

/-- The `(<col> {,<col>}*)` loop of `Parser::foreign_key_clause`; an `ok none`
is the `?` on `consume_ident` propagating `None` out of the clause. -/
def fkColumnsLoop (tokens : List Token) :
    Nat → List String → PSt → PRes (Option (List String))
  | 0, _, _ => .nofuel
  | fuel + 1, acc, s =>
    match consume_ident tokens s with
    | (none, s1) => .ok none s1
    | (some i, s1) =>
      if (cur tokens s1).ttype = Ty.Comma then
        fkColumnsLoop tokens fuel (acc ++ [i]) (advance tokens s1)
      else .ok (some (acc ++ [i])) s1

/-- The tail of `Parser::foreign_key_clause` after the optional column list:
the `ON`/`MATCH` groups and the `[NOT] DEFERRABLE [INITIALLY …]` suffix. -/
def foreign_key_clause_tail (tokens : List Token) (fuel : Nat)
    (fk : nodes.ForeignKeyClause) (s : PSt) : PRes (Option nodes.ForeignKeyClause) :=
  match foreign_key_clause_on_and_match tokens fuel fk s with
  | .panic m => .panic m
  | .nofuel => .nofuel
  | .ok fk1 s1 =>
    if (cur tokens s1).ttype = Ty.Keyword .NOT ||
        (cur tokens s1).ttype = Ty.Keyword .DEFERRABLE then
      let (fk2, s2) :=
        if (cur tokens s1).ttype = Ty.Keyword .NOT then
          ({ fk1 with deferrable := false }, advance tokens s1)
        else ({ fk1 with deferrable := true }, s1)
      let s3 := consume_keyword tokens .DEFERRABLE s2
      let (fk3, s4) :=
        if (cur tokens s3).ttype = Ty.Keyword .INITIALLY then
          let s4 := advance tokens s3
          match (cur tokens s4).ttype with
          | .Keyword .DEFERRED => ({ fk2 with initially_deferred := true }, advance tokens s4)
          | .Keyword .IMMEDIATE => (fk2, advance tokens s4)
          | _ => (fk2, advance tokens (pushErr s4 (errT (cur tokens s4) .Syntax)))
        else (fk2, s3)
      let fk5 := if fk3.deferrable then fk3 else { fk3 with initially_deferred := false }
      .ok (some fk5) s4
    else .ok (some fk1) s1

/-- `Parser::foreign_key_clause`. -/
def foreign_key_clause (tokens : List Token) (fuel : Nat) (s : PSt) :
    PRes (Option nodes.ForeignKeyClause) :=
  let s1 := consume_keyword tokens .REFERENCES s
  match consume_ident tokens s1 with
  | (none, s2) => .ok none s2
  | (some ft, s2) =>
    let fk0 : nodes.ForeignKeyClause :=
      { foreign_table := ft, references_columns := [], on_delete := none,
        on_update := none, match_type := none, deferrable := false,
        initially_deferred := false }
    if (cur tokens s2).ttype = Ty.BraceLeft then
      match fkColumnsLoop tokens fuel [] (advance tokens s2) with
      | .panic m => .panic m
      | .nofuel => .nofuel
      | .ok none s3 => .ok none s3
      | .ok (some cols) s3 =>
        foreign_key_clause_tail tokens fuel
          { fk0 with references_columns := cols } (consume tokens .BraceRight s3)
    else foreign_key_clause_tail tokens fuel fk0 s2

/-- Whether a token starts a column constraint (the guard of the constraint
loop in `Parser::column_def`). -/
def isConstraintStart (t : Ty) : Bool :=
  match t with
  | .Keyword .CONSTRAINT | .Keyword .PRIMARY | .Keyword .NOT | .Keyword .UNIQUE
  | .Keyword .CHECK | .Keyword .DEFAULT | .Keyword .COLLATE
  | .Keyword .REFERENCES | .Keyword .GENERATED | .Keyword .AS => true
  | _ => false

/-- The column-constraint loop of `Parser::column_def`. An `ok none` is a `?`
early `None` return of `column_def`; the `AS`/`GENERATED` arm models the
source's `self.expr().unwrap()`, which panics when the expression is `None`. -/
def column_constraints_loop (tokens : List Token) :
    Nat → nodes.ColumnDef → PSt → PRes (Option nodes.ColumnDef)
  | 0, _, _ => .nofuel
  | fuel + 1, d, s =>
    if s.pos < tokens.length && isConstraintStart (cur tokens s).ttype then
      let s1 :=
        if (cur tokens s).ttype = Ty.Keyword .CONSTRAINT then
          (consume_ident tokens (advance tokens s)).2
        else s
      if (cur tokens s1).ttype = Ty.Keyword .PRIMARY then
        let s3 := consume_keyword tokens .KEY (advance tokens s1)
        let (asc_desc, s4) :=
          match (cur tokens s3).ttype with
          | .Keyword .ASC => (some Keyword.ASC, advance tokens s3)
          | .Keyword .DESC => (some Keyword.DESC, advance tokens s3)
          | _ => (none, s3)
        let (on_conflict, s5) := conflict_clause tokens s4
        let (autoincrement, s6) :=
          if (cur tokens s5).ttype = Ty.Keyword .AUTOINCREMENT then
            (true, advance tokens s5)
          else (false, s5)
        column_constraints_loop tokens fuel
          { d with constraints :=
              d.constraints ++ [.PrimaryKey asc_desc on_conflict autoincrement] } s6
      else if (cur tokens s1).ttype = Ty.Keyword .NOT then
        let s3 := consume_keyword tokens .NULL (advance tokens s1)
        let (on_conflict, s4) := conflict_clause tokens s3
        column_constraints_loop tokens fuel
          { d with constraints := d.constraints ++ [.NotNull on_conflict] } s4
      else if (cur tokens s1).ttype = Ty.Keyword .UNIQUE then
        let (on_conflict, s3) := conflict_clause tokens (advance tokens s1)
        column_constraints_loop tokens fuel
          { d with constraints := d.constraints ++ [.Unique on_conflict] } s3
      else if (cur tokens s1).ttype = Ty.Keyword .CHECK then
        let s3 := consume tokens .BraceLeft (advance tokens s1)
        match expr tokens s3 with
        | .panic m => .panic m
        | .nofuel => .nofuel
        | .ok none s4 => .ok none s4
        | .ok (some e) s4 =>
          column_constraints_loop tokens fuel
            { d with constraints := d.constraints ++ [.Check e] }
            (consume tokens .BraceRight s4)
      else if (cur tokens s1).ttype = Ty.Keyword .DEFAULT then
        let s3 := advance tokens s1
        if (cur tokens s3).ttype = Ty.BraceLeft then
          match expr tokens (advance tokens s3) with
          | .panic m => .panic m
          | .nofuel => .nofuel
          | .ok e s4 =>
            column_constraints_loop tokens fuel
              { d with constraints := d.constraints ++ [.Default e none] }
              (consume tokens .BraceRight s4)
        else
          let (lit, s4) := literal_value tokens s3
          column_constraints_loop tokens fuel
            { d with constraints := d.constraints ++ [.Default none lit] } s4
      else if (cur tokens s1).ttype = Ty.Keyword .COLLATE then
        match consume_ident tokens (advance tokens s1) with
        | (none, s3) => .ok none s3
        | (some nm, s3) =>
          column_constraints_loop tokens fuel
            { d with constraints := d.constraints ++ [.Collate nm] } s3
      else if (cur tokens s1).ttype = Ty.Keyword .REFERENCES then
        match foreign_key_clause tokens fuel s1 with
        | .panic m => .panic m
        | .nofuel => .nofuel
        | .ok none s3 => .ok none s3
        | .ok (some fk) s3 =>
          column_constraints_loop tokens fuel
            { d with constraints := d.constraints ++ [.ForeignKey fk] } s3
      else if (cur tokens s1).ttype = Ty.Keyword .GENERATED ||
          (cur tokens s1).ttype = Ty.Keyword .AS then
        let (is_generated, s3) :=
          if (cur tokens s1).ttype = Ty.Keyword .GENERATED then
            (true, consume_keyword tokens .ALWAYS (advance tokens s1))
          else (false, s1)
        let s4 := consume tokens .BraceLeft (consume_keyword tokens .AS s3)
        match expr tokens s4 with
        | .panic m => .panic m
        | .nofuel => .nofuel
        | .ok none _ => .panic "called Option::unwrap on a None value"
        | .ok (some e) s5 =>
          let s6 := consume tokens .BraceRight s5
          let (stored_virtual, s7) :=
            match (cur tokens s6).ttype with
            | .Keyword .STORED => (some Keyword.STORED, advance tokens s6)
            | .Keyword .VIRTUAL => (some Keyword.VIRTUAL, advance tokens s6)
            | _ => (none, s6)
          column_constraints_loop tokens fuel
            { d with constraints :=
                d.constraints ++
                  [if is_generated then .Generated e stored_virtual
                   else .As e stored_virtual] } s7
      else
        -- `constraint = None`: nothing pushed, loop re-checks its guard
        column_constraints_loop tokens fuel d s1
    else .ok (some d) s

/-- `Parser::column_def`. -/
def column_def (tokens : List Token) (fuel : Nat) (s : PSt) :
    PRes (Option nodes.ColumnDef) :=
  let t := cur tokens s
  match consume_ident tokens s with
  | (none, s1) => .ok none s1
  | (some nm, s1) =>
    let (type_name, s2) :=
      match (cur tokens s1).ttype with
      | .Ident tyname =>
        let tn := some (SqliteStorageClass.from_str tyname)
        let s2 :=
          if (SqliteStorageClass.from_str_strict tyname).isNone then
            pushErr s1 (errT (cur tokens s1) .Quirk)
          else s1
        let s3 := advance tokens s2
        if (cur tokens s3).ttype = Ty.BraceLeft then
          let s4 := advance tokens s3
          let s5 :=
            match (cur tokens s4).ttype with
            | .Number _ => advance tokens s4
            | _ => advance tokens (pushErr s4 (errT (cur tokens s4) .Syntax))
          let s6 :=
            if (cur tokens s5).ttype = Ty.Comma then
              let s6 := advance tokens s5
              match (cur tokens s6).ttype with
              | .Number _ => advance tokens s6
              | _ => advance tokens (pushErr s6 (errT (cur tokens s6) .Syntax))
            else s5
          (tn, consume tokens .BraceRight s6)
        else (tn, s3)
      | _ =>
        -- no declared type: Quirk at the previous token (saturating_sub)
        let tok := (tokens[s1.pos - 1]?).getD (cur tokens s1)
        (none, pushErr s1 { line := tok.line, rule := .Quirk, start := tok.start,
                            endPos := tok.endPos, improved_line := none })
    column_constraints_loop tokens fuel
      { t, name := nm, type_name, constraints := [] } s2

/-- `Parser::pragma_stmt`. -/
def pragma_stmt (tokens : List Token) (s : PSt) : PRes (Option nodes.Node) :=
  let t := cur tokens s
  let s1 := advance tokens s
  match schema_table_container tokens (some "pragma") s1 with
  | (none, s2) => .ok none s2
  | (some name, s2) =>
    if (cur tokens s2).ttype = Ty.Semicolon then
      .ok (some (.Pragma { t, name, invocation := .Query })) (expect_end tokens s2)
    else if (cur tokens s2).ttype = Ty.Equal then
      let s3 := advance tokens s2
      let s4 :=
        match (cur tokens s3).ttype with
        | .String _ | .Number _ | .Ident _ | .Keyword _ => s3
        | _ => advance tokens (pushErr s3 (errT (cur tokens s3) .Syntax))
      .ok (some (.Pragma { t, name, invocation := .Assign (cur tokens s4) }))
        (expect_end tokens (advance tokens s4))
    else if (cur tokens s2).ttype = Ty.BraceLeft then
      let s3 := advance tokens s2
      let s4 :=
        match (cur tokens s3).ttype with
        | .String _ | .Number _ | .Ident _ | .Keyword _ => s3
        | _ => advance tokens (pushErr s3 (errT (cur tokens s3) .Syntax))
      .ok (some (.Pragma { t, name, invocation := .Call (cur tokens s4) }))
        (expect_end tokens (consume tokens .BraceRight (advance tokens s4)))
    else .ok none (advance tokens (pushErr s2 (errT (cur tokens s2) .Syntax)))

/-- `Parser::alter_stmt`. -/
def alter_stmt (tokens : List Token) (fuel : Nat) (s : PSt) :
    PRes (Option nodes.Node) :=
  let t := cur tokens s
  let s1 := consume tokens (Ty.Keyword .TABLE) (advance tokens s)
  match schema_table_container tokens none s1 with
  | (none, s2) => .ok none s2
  | (some target, s2) =>
    let a0 : nodes.Alter :=
      { t, target, rename_to := none, rename_column_target := none,
        new_column_name := none, add_column := none, drop_column := none }
    match (cur tokens s2).ttype with
    | .Keyword .RENAME =>
      let s3 := advance tokens s2
      if (cur tokens s3).ttype = Ty.Keyword .TO then
        match consume_ident tokens (advance tokens s3) with
        | (none, s4) => .ok none s4
        | (some new_table_name, s4) =>
          .ok (some (.Alter { a0 with rename_to := some new_table_name }))
            (expect_end tokens s4)
      else
        let s4 :=
          if (cur tokens s3).ttype = Ty.Keyword .COLUMN then advance tokens s3 else s3
        let (rct, s5) := consume_ident tokens s4
        let s6 := consume tokens (Ty.Keyword .TO) s5
        let (ncn, s7) := consume_ident tokens s6
        .ok (some (.Alter { a0 with rename_column_target := rct, new_column_name := ncn }))
          (expect_end tokens s7)
    | .Keyword .ADD =>
      let s3 := advance tokens s2
      let s4 :=
        if (cur tokens s3).ttype = Ty.Keyword .COLUMN then advance tokens s3 else s3
      match column_def tokens fuel s4 with
      | .panic m => .panic m
      | .nofuel => .nofuel
      | .ok cd s5 =>
        .ok (some (.Alter { a0 with add_column := cd })) (expect_end tokens s5)
    | .Keyword .DROP =>
      let s3 := advance tokens s2
      let s4 :=
        if (cur tokens s3).ttype = Ty.Keyword .COLUMN then advance tokens s3 else s3
      let (dc, s5) := consume_ident tokens s4
      .ok (some (.Alter { a0 with drop_column := dc })) (expect_end tokens s5)
    | _ => .ok none (advance tokens (pushErr s2 (errT (cur tokens s2) .Syntax)))

/-- `Parser::reindex_stmt`. -/
def reindex_stmt (tokens : List Token) (s : PSt) : PRes (Option nodes.Node) :=
  let t := cur tokens s
  let s1 := advance tokens s
  if (cur tokens s1).ttype = Ty.Semicolon then .ok (some (.Reindex t none)) s1
  else
    let (target, s2) := schema_table_container tokens none s1
    .ok (some (.Reindex t target)) (expect_end tokens s2)

/-- `Parser::attach_stmt`. -/
def attach_stmt (tokens : List Token) (s : PSt) : PRes (Option nodes.Node) :=
  let t := cur tokens s
  let s1 := advance tokens s
  let s2 :=
    if (cur tokens s1).ttype = Ty.Keyword .DATABASE then advance tokens s1 else s1
  match expr tokens s2 with
  | .panic m => .panic m
  | .nofuel => .nofuel
  | .ok none s3 => .ok none s3
  | .ok (some e) s3 =>
    let s4 := consume tokens (Ty.Keyword .AS) s3
    match consume_ident tokens s4 with
    | (none, s5) => .ok none s5
    | (some schema_name, s5) =>
      .ok (some (.Attach t schema_name e)) (expect_end tokens s5)

/-- `Parser::release_stmt`. -/
def release_stmt (tokens : List Token) (s : PSt) : PRes (Option nodes.Node) :=
  let t := cur tokens s
  let s1 := advance tokens s
  let s2 :=
    if (cur tokens s1).ttype = Ty.Keyword .SAVEPOINT then advance tokens s1 else s1
  match consume_ident tokens s2 with
  | (none, s3) => .ok none s3
  | (some nm, s3) => .ok (some (.Release t nm)) (expect_end tokens s3)

/-- `Parser::savepoint_stmt`. -/
def savepoint_stmt (tokens : List Token) (s : PSt) : PRes (Option nodes.Node) :=
  let t := cur tokens s
  let s1 := advance tokens s
  match consume_ident tokens s1 with
  | (none, s2) => .ok none s2
  | (some nm, s2) => .ok (some (.Savepoint t nm)) (expect_end tokens s2)

/-- The tail of `Parser::drop_stmt` after the object-kind keyword was
recognized (the source extracts it with an `unreachable!` guard). -/
def drop_stmt_tail (tokens : List Token) (t : Token) (kw : Keyword) (s1 : PSt) :
    PRes (Option nodes.Node) :=
  let s2 := advance tokens s1
  let (if_exists, s3) :=
    if (cur tokens s2).ttype = Ty.Keyword .IF then
      (true, consume_keyword tokens .EXISTS (advance tokens s2))
    else (false, s2)
  match schema_table_container tokens none s3 with
  | (none, s4) => .ok none s4
  | (some argument, s4) => .ok (some (.Drop t kw if_exists argument)) s4

/-- `Parser::drop_stmt`. -/
def drop_stmt (tokens : List Token) (s : PSt) : PRes (Option nodes.Node) :=
  let t := cur tokens s
  let s1 := advance tokens s
  match (cur tokens s1).ttype with
  | .Keyword .INDEX => drop_stmt_tail tokens t .INDEX s1
  | .Keyword .TABLE => drop_stmt_tail tokens t .TABLE s1
  | .Keyword .TRIGGER => drop_stmt_tail tokens t .TRIGGER s1
  | .Keyword .VIEW => drop_stmt_tail tokens t .VIEW s1
  | _ => .ok none (advance tokens (pushErr s1 (errT (cur tokens s1) .Syntax)))

/-- `Parser::analyse_stmt` (with its inlined schema-table reader, whose
catch-all arm pushes no error and does not advance). -/
def analyse_stmt (tokens : List Token) (s : PSt) : PRes (Option nodes.Node) :=
  let t := cur tokens s
  let s1 := advance tokens s
  let (target, s2) :=
    match (cur tokens s1).ttype with
    | .Ident schema =>
      if next_is tokens s1 .Dot then
        let s2 := advance tokens (advance tokens s1)
        match (cur tokens s2).ttype with
        | .Ident table =>
          (some (nodes.SchemaTableContainer.SchemaAndTable schema table), advance tokens s2)
        | .String table =>
          (some (nodes.SchemaTableContainer.SchemaAndTable schema table), advance tokens s2)
        | _ => (none, advance tokens (pushErr s2 (errT (cur tokens s2) .Syntax)))
      else (some (nodes.SchemaTableContainer.Table schema), advance tokens s1)
    | .String table_name =>
      (some (nodes.SchemaTableContainer.Table table_name), advance tokens s1)
    | _ => (none, s1)
  .ok (some (.Analyze t target)) (expect_end tokens s2)

/-- `Parser::detach_stmt`. -/
def detach_stmt (tokens : List Token) (s : PSt) : PRes (Option nodes.Node) :=
  let t := cur tokens s
  let s1 := advance tokens s
  let s2 :=
    if (cur tokens s1).ttype = Ty.Keyword .DATABASE then advance tokens s1 else s1
  match consume_ident tokens s2 with
  | (none, s3) => .ok none s3
  | (some schema_name, s3) => .ok (some (.Detach t schema_name)) (expect_end tokens s3)

/-- `Parser::rollback_stmt`. -/
def rollback_stmt (tokens : List Token) (s : PSt) : PRes (Option nodes.Node) :=
  let t := cur tokens s
  let s1 := advance tokens s
  let s2 :=
    match (cur tokens s1).ttype with
    | .Keyword .TRANSACTION | .Keyword .TO | .Semicolon => s1
    | _ => pushErr s1 (errT (cur tokens s1) .Syntax)
  let s3 :=
    if (cur tokens s2).ttype = Ty.Keyword .TRANSACTION then advance tokens s2 else s2
  if (cur tokens s3).ttype = Ty.Keyword .TO then
    let s4 := advance tokens s3
    let s5 :=
      if (cur tokens s4).ttype = Ty.Keyword .SAVEPOINT then advance tokens s4 else s4
    let s6 :=
      match (cur tokens s5).ttype with
      | .Keyword .SAVEPOINT | .Ident _ | .Semicolon => s5
      | _ => advance tokens (pushErr s5 (errT (cur tokens s5) .Syntax))
    let (sp, s7) :=
      match (cur tokens s6).ttype with
      | .Ident str => (some str, advance tokens s6)
      | _ => (none, advance tokens (pushErr s6 (errT (cur tokens s6) .Syntax)))
    .ok (some (.Rollback t sp)) (expect_end tokens s7)
  else .ok (some (.Rollback t none)) (expect_end tokens s3)

/-- `Parser::commit_stmt`. -/
def commit_stmt (tokens : List Token) (s : PSt) : PRes (Option nodes.Node) :=
  let t := cur tokens s
  let s1 := advance tokens s
  let s2 :=
    match (cur tokens s1).ttype with
    | .Semicolon => s1
    | .Keyword .TRANSACTION => advance tokens s1
    | _ => advance tokens (pushErr s1 (errT (cur tokens s1) .Syntax))
  .ok (some (.Commit t)) (expect_end tokens s2)

/-- `Parser::begin_stmt`. -/
def begin_stmt (tokens : List Token) (s : PSt) : PRes (Option nodes.Node) :=
  let t := cur tokens s
  let s1 := advance tokens s
  match (cur tokens s1).ttype with
  | .Semicolon => .ok (some (.Begin t none)) s1
  | _ =>
    let (kind, s2) :=
      match (cur tokens s1).ttype with
      | .Keyword .DEFERRED => (some Keyword.DEFERRED, advance tokens s1)
      | .Keyword .IMMEDIATE => (some Keyword.IMMEDIATE, advance tokens s1)
      | .Keyword .EXCLUSIVE => (some Keyword.EXCLUSIVE, advance tokens s1)
      | _ => (none, s1)
    match (cur tokens s2).ttype with
    | .Semicolon => .ok (some (.Begin t kind)) s2
    | .Keyword .TRANSACTION =>
      .ok (some (.Begin t kind)) (expect_end tokens (advance tokens s2))
    | .Keyword .DEFERRED | .Keyword .IMMEDIATE | .Keyword .EXCLUSIVE =>
      .ok (some (.Begin t kind))
        (expect_end tokens
          (skip_until_semicolon_or_eof tokens
            (pushErr s2 (errT (cur tokens s2) .Syntax))))
    | _ =>
      .ok (some (.Begin t kind))
        (expect_end tokens (pushErr s2 (errT (cur tokens s2) .Syntax)))

/-- `Parser::vacuum_stmt`. -/
def vacuum_stmt (tokens : List Token) (s : PSt) : PRes (Option nodes.Node) :=
  let t := cur tokens s
  let s1 := consume tokens (Ty.Keyword .VACUUM) s
  let s2 :=
    match (cur tokens s1).ttype with
    | .Semicolon | .Ident _ | .Keyword .INTO => s1
    | _ => advance tokens (pushErr s1 (errT (cur tokens s1) .Syntax))
  if (cur tokens s2).ttype = Ty.Semicolon then .ok (some (.Vacuum t none none)) s2
  else
    let (schema_name, s3) :=
      match (cur tokens s2).ttype with
      | .Ident _ => (some (cur tokens s2), advance tokens s2)
      | _ => (none, s2)
    let (filename, s4) :=
      if (cur tokens s3).ttype = Ty.Keyword .INTO then
        let s4 := advance tokens s3
        match (cur tokens s4).ttype with
        | .String _ => (some (cur tokens s4), advance tokens s4)
        | _ => (none, advance tokens (pushErr s4 (errT (cur tokens s4) .Syntax)))
      else (none, s3)
    .ok (some (.Vacuum t schema_name filename)) (expect_end tokens s4)

/-- `Parser::create_stmt` — `todo!` in the source (not reachable from
`sql_stmt`'s dispatch). -/
def create_stmt (_tokens : List Token) (_s : PSt) : PRes (Option nodes.Node) :=
  .panic "Parser::create_stmt"

/-- `Parser::sql_stmt`. In the `Ident` branch, both the with-suggestions and
without-suggestions arms produce the same modelled `Error` fields (the source
differs only in the dropped note text and doc url). -/
def sql_stmt (tokens : List Token) (fuel : Nat) (s : PSt) : PRes (Option nodes.Node) :=
  match (cur tokens s).ttype with
  | .Keyword .PRAGMA => pragma_stmt tokens s
  | .Keyword .ALTER => alter_stmt tokens fuel s
  | .Keyword .ATTACH => attach_stmt tokens s
  | .Keyword .REINDEX => reindex_stmt tokens s
  | .Keyword .RELEASE => release_stmt tokens s
  | .Keyword .SAVEPOINT => savepoint_stmt tokens s
  | .Keyword .DROP => drop_stmt tokens s
  | .Keyword .ANALYZE => analyse_stmt tokens s
  | .Keyword .DETACH => detach_stmt tokens s
  | .Keyword .ROLLBACK => rollback_stmt tokens s
  | .Keyword .COMMIT => commit_stmt tokens s
  | .Keyword .END => commit_stmt tokens s
  | .Keyword .BEGIN => begin_stmt tokens s
  | .Keyword .VACUUM => vacuum_stmt tokens s
  | .Semicolon => .ok none (advance tokens (pushErr s (errT (cur tokens s) .Syntax)))
  | .String _ | .Number _ | .Blob _ | .Keyword .NULL | .Boolean _
  | .Keyword .CURRENT_TIME | .Keyword .CURRENT_DATE | .Keyword .CURRENT_TIMESTAMP =>
    .ok none (advance tokens (pushErr s (errT (cur tokens s) .Syntax)))
  | .Ident name =>
    let s1 :=
      if !(Keyword.suggestions name).isEmpty then
        pushErr s (errT (cur tokens s) .UnknownKeyword)
      else pushErr s (errT (cur tokens s) .UnknownKeyword)
    .ok none (advance tokens s1)
  | .Keyword _ => .ok none (advance tokens (pushErr s (errT (cur tokens s) .Unimplemented)))
  | _ => .ok none (skip_until_semicolon_or_eof tokens
      (pushErr s (errT (cur tokens s) .Unimplemented)))

/-- `Parser::sql_stmt_prefix`. -/
def sql_stmt_prefix (tokens : List Token) (fuel : Nat) (s : PSt) :
    PRes (Option nodes.Node) :=
  match (cur tokens s).ttype with
  | .Keyword .EXPLAIN =>
    let t := cur tokens s
    let s1 := advance tokens s
    let s2 :=
      if (cur tokens s1).ttype = Ty.Keyword .QUERY then
        consume tokens (Ty.Keyword .PLAN) (advance tokens s1)
      else s1
    match sql_stmt tokens fuel s2 with
    | .panic m => .panic m
    | .nofuel => .nofuel
    | .ok none s3 => .ok none s3
    | .ok (some child) s3 => .ok (some (.Explain t child)) s3
  | _ => sql_stmt tokens fuel s

/-- `Parser::sql_stmt_list`, fuel-indexed on its outer loop. -/
def sql_stmt_list (tokens : List Token) : Nat → PSt → PRes (List nodes.Node)
  | 0, _ => .nofuel
  | fuel + 1, s =>
    if s.pos < tokens.length then
      if (cur tokens s).ttype = Ty.InstructionExpect then
        let s1 := skip_until_semicolon_or_eof tokens s
        if s1.pos < tokens.length then
          sql_stmt_list tokens fuel (consume tokens .Semicolon s1)
        else
          match sql_stmt_prefix tokens fuel s1 with
          | .panic m => .panic m
          | .nofuel => .nofuel
          | .ok stmt? s2 =>
            match sql_stmt_list tokens fuel (consume tokens .Semicolon s2) with
            | .ok rest s3 => .ok (stmt?.toList ++ rest) s3
            | .panic m => .panic m
            | .nofuel => .nofuel
      else
        match sql_stmt_prefix tokens fuel s with
        | .panic m => .panic m
        | .nofuel => .nofuel
        | .ok stmt? s2 =>
          match sql_stmt_list tokens fuel (consume tokens .Semicolon s2) with
          | .ok rest s3 => .ok (stmt?.toList ++ rest) s3
          | .panic m => .panic m
          | .nofuel => .nofuel
    else .ok [] s

/-- `Parser::parse` on a fresh parser state. -/
def parse (tokens : List Token) (fuel : Nat) : PRes (List nodes.Node) :=
  sql_stmt_list tokens fuel ⟨0, []⟩

/-- The accumulated diagnostics of a parser outcome (specification accessor,
not from the source). -/
def PRes.errorsOf {α : Type} : PRes α → List Error
  | .ok _ s => s.errors
  | _ => []

end Parser

/-- Specification predicate (not from the source): the number of populated
alternatives of an `Alter` node, counting the
`(rename_column_target, new_column_name)` pair as one alternative, populated
when either of its fields is. -/
def nodes.Alter.altCount (a : nodes.Alter) : Nat :=
  (if a.rename_to.isSome then 1 else 0) +
  (if a.rename_column_target.isSome || a.new_column_name.isSome then 1 else 0) +
  (if a.add_column.isSome then 1 else 0) +
  (if a.drop_column.isSome then 1 else 0)

/-- Specification predicate (not from the source): every `Alter` node in a
statement tree sets at most one alternative (`Explain` is the only node with a
child statement, so the recursion stops elsewhere). -/
def nodes.Node.altersAtMostOne : nodes.Node → Prop
  | .Explain _ child => child.altersAtMostOne
  | .Alter a => a.altCount ≤ 1
  | _ => True

end Sqleibniz

/-! ## Lexer lemmas: progress and totality -/

namespace Sqleibniz
namespace Lexer

theorem advanceC_pos (c : Char) (st : LexState) : (advanceC c st).pos = st.pos + 1 := by
  unfold advanceC; split <;> rfl

theorem advance_pos (src : List Char) (st : LexState) :
    (advance src st).pos = st.pos + 1 := by
  unfold advance; exact advanceC_pos _ _

theorem numScanAux_pos (l : List Char) : ∀ st : LexState, st.pos ≤ (numScanAux l st).pos := by
  induction l with
  | nil => intro st; simp [numScanAux]
  | cons c rest ih =>
    intro st
    unfold numScanAux
    split
    · exact le_trans (by simp [advanceC_pos]) (ih (advanceC c st))
    · exact le_refl _

theorem identScanAux_pos (l : List Char) : ∀ st : LexState, st.pos ≤ (identScanAux l st).pos := by
  induction l with
  | nil => intro st; simp [identScanAux]
  | cons c rest ih =>
    intro st
    unfold identScanAux
    split
    · exact le_trans (by simp [advanceC_pos]) (ih (advanceC c st))
    · exact le_refl _

theorem directiveScanAux_pos (l : List Char) :
    ∀ st : LexState, st.pos ≤ (directiveScanAux l st).pos := by
  induction l with
  | nil => intro st; simp [directiveScanAux]
  | cons c rest ih =>
    intro st
    unfold directiveScanAux
    split
    · exact le_refl _
    · exact le_trans (by simp [advanceC_pos]) (ih (advanceC c st))

theorem skipLineAux_pos (l : List Char) : ∀ st : LexState, st.pos ≤ (skipLineAux l st).pos := by
  induction l with
  | nil => intro st; simp [skipLineAux]
  | cons c rest ih =>
    intro st
    unfold skipLineAux
    split
    · exact le_refl _
    · exact le_trans (by simp [advanceC_pos]) (ih (advanceC c st))

theorem blockCommentLoopAux_pos (l : List Char) :
    ∀ st : LexState, st.pos ≤ (blockCommentLoopAux l st).pos := by
  induction l with
  | nil => intro st; simp [blockCommentLoopAux]
  | cons c rest ih =>
    intro st
    unfold blockCommentLoopAux
    split
    · simp [advanceC_pos]
    · exact le_trans (by simp [advanceC_pos]) (ih (advanceC c st))

theorem stringLoopAux_pos (src : List Char) (a b : Nat) (l : List Char) :
    ∀ st : LexState, st.pos ≤ (stringLoopAux src a b l st).2.pos := by
  induction l with
  | nil => intro st; simp [stringLoopAux]
  | cons c rest ih =>
    intro st
    unfold stringLoopAux
    split
    · simp [advanceC_pos]
    · split
      · simp [advanceC_pos]
      · exact le_trans (by simp [advanceC_pos]) (ih (advanceC c st))

theorem string_pos (src : List Char) (st : LexState) : st.pos ≤ (string src st).2.pos :=
  stringLoopAux_pos src st.pos st.linePos (src.drop st.pos) st

theorem lineCommentLoopAux_pos (src : List Char) (l : List Char) :
    ∀ st : LexState, st.pos ≤ (lineCommentLoopAux src l st).2.2.pos := by
  induction l with
  | nil => intro st; simp [lineCommentLoopAux]
  | cons c rest ih =>
    intro st
    unfold lineCommentLoopAux
    split
    · exact le_refl _
    · split
      · -- '@' branch: directive scan then line skip
        have h1 : st.pos + 1 ≤ (directiveScanAux rest (advanceC c st)).pos := by
          have := directiveScanAux_pos rest (advanceC c st)
          simp [advanceC_pos] at this ⊢
          omega
        dsimp only
        split <;> [skip; skip] <;> try split
        all_goals
          simp only [skipLine]
          refine le_trans ?_ (skipLineAux_pos _ _)
          omega
      · exact le_trans (by simp [advanceC_pos]) (ih (advanceC c st))

theorem lineCommentLoop_pos (src : List Char) (st : LexState) :
    st.pos ≤ (lineCommentLoop src st).2.2.pos :=
  lineCommentLoopAux_pos _ _ _

theorem blockCommentLoop_pos (src : List Char) (st : LexState) :
    st.pos ≤ (blockCommentLoop src st).pos :=
  blockCommentLoopAux_pos _ _

theorem numScan_pos (src : List Char) (st : LexState) : st.pos ≤ (numScan src st).pos :=
  numScanAux_pos _ _

theorem drop_eq_cons_of_getElem (src : List Char) (st : LexState) (c : Char)
    (hc : src[st.pos]? = some c) :
    src.drop st.pos = c :: src.drop (st.pos + 1) := by
  have hlt : st.pos < src.length := by
    by_contra hge
    simp [List.getElem?_eq_none (by omega : src.length ≤ st.pos)] at hc
  rw [List.drop_eq_getElem_cons hlt]
  congr 1
  have := List.getElem?_eq_getElem hlt
  rw [this] at hc
  exact Option.some_inj.mp hc

theorem numScan_pos_succ (src : List Char) (st : LexState) (c : Char)
    (hc : src[st.pos]? = some c) (hn : is_sqlite_num c) :
    st.pos + 1 ≤ (numScan src st).pos := by
  unfold numScan
  rw [drop_eq_cons_of_getElem src st c hc]
  unfold numScanAux
  rw [if_pos hn]
  refine le_trans ?_ (numScanAux_pos _ _)
  simp [advanceC_pos]

theorem identScan_pos_succ (src : List Char) (st : LexState) (c : Char)
    (hc : src[st.pos]? = some c) (hn : is_ident c) :
    st.pos + 1 ≤ (identScan src st).pos := by
  unfold identScan
  rw [drop_eq_cons_of_getElem src st c hc]
  unfold identScanAux
  rw [if_pos hn]
  refine le_trans ?_ (identScanAux_pos _ _)
  simp [advanceC_pos]

theorem is_sqlite_num_of_start (c : Char)
    (h : (isAsciiDigit c || decide (c = '.')) = true) : is_sqlite_num c = true := by
  simp only [isAsciiDigit, is_sqlite_num, Bool.or_eq_true, Bool.and_eq_true,
    decide_eq_true_eq] at h ⊢
  tauto

theorem is_ident_of_start (c : Char)
    (h : (('a' ≤ c && c ≤ 'z') || ('A' ≤ c && c ≤ 'Z') || decide (c = '_')) = true) :
    is_ident c = true := by
  simp only [is_ident, Bool.or_eq_true, Bool.and_eq_true, decide_eq_true_eq] at h ⊢
  tauto

/-- The `-` branch strictly advances. -/
theorem lexStepComment_pos (src : List Char) (st : LexState) :
    st.pos < (lexStepComment src st).2.2.1.pos := by
  unfold lexStepComment
  dsimp only
  split
  · rcases hlc : lineCommentLoop src (advance src (advance src st)) with ⟨t?, e?, st3⟩
    have := lineCommentLoop_pos src (advance src (advance src st))
    rw [hlc] at this
    simp only [advance_pos] at this ⊢
    omega
  · simp only [advance_pos]; omega

/-- The string branch strictly advances. -/
theorem lexStepString_pos (src : List Char) (st : LexState) :
    st.pos < (lexStepString src st).2.2.1.pos := by
  unfold lexStepString
  rcases hsv : string src st with ⟨r1, stv⟩
  have hm := string_pos src st
  rw [hsv] at hm
  dsimp only at hm
  cases r1 <;> simp only [advance_pos] <;> omega

/-- The number branch strictly advances. -/
theorem lexStepNumber_pos (src : List Char) (st : LexState) (c : Char)
    (hc : src[st.pos]? = some c)
    (hd : (isAsciiDigit c || decide (c = '.')) = true) :
    st.pos < (lexStepNumber src st c).2.2.1.pos := by
  unfold lexStepNumber
  split
  · simp only [advance_pos]; omega
  · dsimp only
    by_cases hx : (decide (c = '0') &&
        (decide (src[st.pos + 1]? = some 'x') || decide (src[st.pos + 1]? = some 'X'))) = true
    · rw [if_pos hx]
      dsimp only
      rw [if_pos rfl]
      have := numScan_pos src (advance src (advance src st))
      simp only [advance_pos] at this
      split <;> (dsimp only; omega)
    · rw [if_neg hx]
      dsimp only
      rw [if_neg (by decide : ¬(false = true))]
      have := numScan_pos_succ src st c hc (is_sqlite_num_of_start c hd)
      split <;> (dsimp only; omega)

/-- The blob branch strictly advances. -/
theorem lexStepBlob_pos (src : List Char) (st : LexState) :
    st.pos < (lexStepBlob src st).2.2.1.pos := by
  unfold lexStepBlob
  dsimp only
  split
  · rcases hsv : string src (advance src st) with ⟨r1, stv⟩
    have hm := string_pos src (advance src st)
    rw [hsv] at hm
    dsimp only at hm
    have ha := advance_pos src st
    cases r1 with
    | ok strTok =>
      dsimp only
      split
      · split
        · dsimp only; omega
        · simp only [advance_pos]; omega
      · simp only [advance_pos]; omega
    | error e =>
      simp only [advance_pos]
      omega
  · simp only [advance_pos]; omega

/-- The identifier branch strictly advances. -/
theorem lexStepIdent_pos (src : List Char) (st : LexState) (c : Char)
    (hc : src[st.pos]? = some c)
    (hid : (('a' ≤ c && c ≤ 'z') || ('A' ≤ c && c ≤ 'Z') || decide (c = '_')) = true) :
    st.pos < (lexStepIdent src st).2.2.1.pos := by
  unfold lexStepIdent
  dsimp only
  have := identScan_pos_succ src st c hc (is_ident_of_start c hid)
  omega

/-- Every iteration of the lexer's dispatch loop strictly advances the
position. -/
theorem lexStep_pos (src : List Char) (st : LexState) (c : Char)
    (hc : src[st.pos]? = some c) :
    st.pos < (lexStep src st).2.2.1.pos := by
  unfold lexStep
  rw [hc]
  dsimp only
  by_cases h1 : (decide (c = '\t') || decide (c = '\x0d') || decide (c = ' ') || decide (c = '\n')) = true
  · rw [if_pos h1]
    simp only [advance_pos]; omega
  rw [if_neg h1]
  by_cases h2 : c = '/'
  · rw [if_pos h2]
    simp only [advance_pos]
    split
    · have := blockCommentLoop_pos src st; omega
    · omega
  rw [if_neg h2]
  by_cases h3 : c = '-'
  · rw [if_pos h3]
    exact lexStepComment_pos src st
  rw [if_neg h3]
  by_cases h4 : c = '\''
  · rw [if_pos h4]
    exact lexStepString_pos src st
  rw [if_neg h4]
  by_cases h5 : c = '*'
  · rw [if_pos h5]
    simp only [advance_pos]; omega
  rw [if_neg h5]
  by_cases h6 : c = ';'
  · rw [if_pos h6]
    simp only [advance_pos]; omega
  rw [if_neg h6]
  by_cases h7 : c = ','
  · rw [if_pos h7]
    simp only [advance_pos]; omega
  rw [if_neg h7]
  by_cases h8 : c = '%'
  · rw [if_pos h8]
    simp only [advance_pos]; omega
  rw [if_neg h8]
  by_cases h9 : c = '='
  · rw [if_pos h9]
    simp only [advance_pos]; omega
  rw [if_neg h9]
  by_cases h10 : c = '@'
  · rw [if_pos h10]
    simp only [advance_pos]; omega
  rw [if_neg h10]
  by_cases h11 : c = ':'
  · rw [if_pos h11]
    simp only [advance_pos]; omega
  rw [if_neg h11]
  by_cases h12 : c = '$'
  · rw [if_pos h12]
    simp only [advance_pos]; omega
  rw [if_neg h12]
  by_cases h13 : c = '?'
  · rw [if_pos h13]
    simp only [advance_pos]; omega
  rw [if_neg h13]
  by_cases h14 : c = '('
  · rw [if_pos h14]
    simp only [advance_pos]; omega
  rw [if_neg h14]
  by_cases h15 : c = ')'
  · rw [if_pos h15]
    simp only [advance_pos]; omega
  rw [if_neg h15]
  by_cases h16 : c = '['
  · rw [if_pos h16]
    simp only [advance_pos]; omega
  rw [if_neg h16]
  by_cases h17 : c = ']'
  · rw [if_pos h17]
    simp only [advance_pos]; omega
  rw [if_neg h17]
  by_cases h18 : (isAsciiDigit c || decide (c = '.')) = true
  · rw [if_pos h18]
    exact lexStepNumber_pos src st c hc h18
  rw [if_neg h18]
  by_cases h19 : (decide (c = 'X') || decide (c = 'x')) = true
  · rw [if_pos h19]
    exact lexStepBlob_pos src st
  rw [if_neg h19]
  by_cases h20 : (('a' ≤ c && c ≤ 'z') || ('A' ≤ c && c ≤ 'Z') || decide (c = '_')) = true
  · rw [if_pos h20]
    exact lexStepIdent_pos src st c hc h20
  rw [if_neg h20]
  simp only [advance_pos]; omega

/-- Fuel sufficiency for the lexer's dispatch loop: with more fuel than
remaining input, the loop always completes. -/
theorem lexLoopF_isSome (src : List Char) :
    ∀ (fuel : Nat) (st : LexState), src.length - st.pos < fuel →
      (lexLoopF src fuel st).isSome := by
  intro fuel
  induction fuel with
  | zero => intro st h; omega
  | succ n ih =>
    intro st h
    rw [lexLoopF]
    by_cases hlt : st.pos < src.length
    · rw [if_pos hlt]
      have hch : src[st.pos]? = some (src.get ⟨st.pos, hlt⟩) := by
        exact List.getElem?_eq_getElem hlt
      have hpos := lexStep_pos src st _ hch
      rcases hstep : lexStep src st with ⟨ts, es, st1, cont⟩
      rw [hstep] at hpos
      dsimp only at hpos
      cases cont
      · simp
      · dsimp only
        have hrec := ih st1 (by omega)
        rcases hout : lexLoopF src n st1 with _ | ⟨⟨toks, errs, stf⟩⟩
        · rw [hout] at hrec; simp at hrec
        · simp
    · rw [if_neg hlt]
      simp

/-- The fuel `Lexer::run` passes to the loop always suffices. -/
theorem run_loop_total (src : List Char) :
    (lexLoopF src (src.length + 1) ⟨0, 0, 0⟩).isSome :=
  lexLoopF_isSome src (src.length + 1) ⟨0, 0, 0⟩ (by omega)

end Lexer
end Sqleibniz

namespace Sqleibniz
namespace Parser

theorem altCount_renameTo (t : Token) (target : nodes.SchemaTableContainer)
    (x : String) :
    nodes.Alter.altCount
      { t := t, target := target, rename_to := some x, rename_column_target := none,
        new_column_name := none, add_column := none, drop_column := none } ≤ 1 := by
  simp [nodes.Alter.altCount]

theorem altCount_pair (t : Token) (target : nodes.SchemaTableContainer)
    (rct ncn : Option String) :
    nodes.Alter.altCount
      { t := t, target := target, rename_to := none, rename_column_target := rct,
        new_column_name := ncn, add_column := none, drop_column := none } ≤ 1 := by
  simp [nodes.Alter.altCount]
  split <;> simp

theorem altCount_add (t : Token) (target : nodes.SchemaTableContainer)
    (cd : Option nodes.ColumnDef) :
    nodes.Alter.altCount
      { t := t, target := target, rename_to := none, rename_column_target := none,
        new_column_name := none, add_column := cd, drop_column := none } ≤ 1 := by
  simp [nodes.Alter.altCount]
  split <;> simp

theorem altCount_drop (t : Token) (target : nodes.SchemaTableContainer)
    (dc : Option String) :
    nodes.Alter.altCount
      { t := t, target := target, rename_to := none, rename_column_target := none,
        new_column_name := none, add_column := none, drop_column := dc } ≤ 1 := by
  simp [nodes.Alter.altCount]
  split <;> simp

theorem alter_stmt_alters (tokens : List Token) (fuel : Nat) (s : PSt)
    (n : nodes.Node) (s' : PSt)
    (h : alter_stmt tokens fuel s = .ok (some n) s') : n.altersAtMostOne := by
  unfold alter_stmt at h
  dsimp only at h
  rcases hstc : schema_table_container tokens none
      (consume tokens (Ty.Keyword .TABLE) (advance tokens s)) with ⟨tgt?, s2⟩
  rw [hstc] at h
  cases tgt? with
  | none => dsimp only at h; simp at h
  | some target =>
    dsimp only at h
    split at h
    · -- RENAME
      split at h
      · -- RENAME TO: match on consume_ident
        split at h
        · simp at h
        · simp only [PRes.ok.injEq, Option.some.injEq] at h
          obtain ⟨hn, -⟩ := h
          subst hn
          exact altCount_renameTo _ _ _
      · -- RENAME [COLUMN] <old> TO <new>
        simp only [PRes.ok.injEq, Option.some.injEq] at h
        obtain ⟨hn, -⟩ := h
        subst hn
        exact altCount_pair _ _ _ _
    · -- ADD
      split at h
      · simp at h
      · simp at h
      · simp only [PRes.ok.injEq, Option.some.injEq] at h
        obtain ⟨hn, -⟩ := h
        subst hn
        exact altCount_add _ _ _
    · -- DROP
      simp only [PRes.ok.injEq, Option.some.injEq] at h
      obtain ⟨hn, -⟩ := h
      subst hn
      exact altCount_drop _ _ _
    · -- anything else
      simp at h

end Parser
end Sqleibniz

namespace Sqleibniz
namespace Parser

theorem pragma_stmt_alters (tokens : List Token) (s : PSt) (n : nodes.Node) (s' : PSt)
    (h : pragma_stmt tokens s = .ok (some n) s') : n.altersAtMostOne := by
  unfold pragma_stmt at h
  dsimp only at h
  rcases hstc : schema_table_container tokens (some "pragma") (advance tokens s) with ⟨r, s2⟩
  rw [hstc] at h
  cases r with
  | none => simp at h
  | some name =>
    dsimp only at h
    split at h
    · simp only [PRes.ok.injEq, Option.some.injEq] at h
      obtain ⟨hn, -⟩ := h
      subst hn
      trivial
    · split at h
      · simp only [PRes.ok.injEq, Option.some.injEq] at h
        obtain ⟨hn, -⟩ := h
        subst hn
        trivial
      · split at h
        · simp only [PRes.ok.injEq, Option.some.injEq] at h
          obtain ⟨hn, -⟩ := h
          subst hn
          trivial
        · simp at h

theorem reindex_stmt_alters (tokens : List Token) (s : PSt) (n : nodes.Node) (s' : PSt)
    (h : reindex_stmt tokens s = .ok (some n) s') : n.altersAtMostOne := by
  unfold reindex_stmt at h
  dsimp only at h
  split at h
  · simp only [PRes.ok.injEq, Option.some.injEq] at h
    obtain ⟨hn, -⟩ := h
    subst hn
    trivial
  · simp only [PRes.ok.injEq, Option.some.injEq] at h
    obtain ⟨hn, -⟩ := h
    subst hn
    trivial

theorem attach_stmt_alters (tokens : List Token) (s : PSt) (n : nodes.Node) (s' : PSt)
    (h : attach_stmt tokens s = .ok (some n) s') : n.altersAtMostOne := by
  unfold attach_stmt at h
  dsimp only at h
  split at h
  · simp at h
  · simp at h
  · simp at h
  · rename_i e s3 heq
    rcases hci : consume_ident tokens (consume tokens (Ty.Keyword .AS) s3) with ⟨r, s5⟩
    rw [hci] at h
    cases r with
    | none => simp at h
    | some nm =>
      simp only [PRes.ok.injEq, Option.some.injEq] at h
      obtain ⟨hn, -⟩ := h
      subst hn
      trivial

theorem release_stmt_alters (tokens : List Token) (s : PSt) (n : nodes.Node) (s' : PSt)
    (h : release_stmt tokens s = .ok (some n) s') : n.altersAtMostOne := by
  unfold release_stmt at h
  dsimp only at h
  rcases hci : consume_ident tokens
      (if (cur tokens (advance tokens s)).ttype = Ty.Keyword .SAVEPOINT then
        advance tokens (advance tokens s) else advance tokens s) with ⟨r, s3⟩
  rw [hci] at h
  cases r with
  | none => simp at h
  | some nm =>
    simp only [PRes.ok.injEq, Option.some.injEq] at h
    obtain ⟨hn, -⟩ := h
    subst hn
    trivial

theorem savepoint_stmt_alters (tokens : List Token) (s : PSt) (n : nodes.Node) (s' : PSt)
    (h : savepoint_stmt tokens s = .ok (some n) s') : n.altersAtMostOne := by
  unfold savepoint_stmt at h
  dsimp only at h
  rcases hci : consume_ident tokens (advance tokens s) with ⟨r, s2⟩
  rw [hci] at h
  cases r with
  | none => simp at h
  | some nm =>
    simp only [PRes.ok.injEq, Option.some.injEq] at h
    obtain ⟨hn, -⟩ := h
    subst hn
    trivial

theorem drop_stmt_tail_alters (tokens : List Token) (t : Token) (kw : Keyword)
    (s1 : PSt) (n : nodes.Node) (s' : PSt)
    (h : drop_stmt_tail tokens t kw s1 = .ok (some n) s') : n.altersAtMostOne := by
  unfold drop_stmt_tail at h
  dsimp only at h
  repeat' split at h
  all_goals
    first
    | (simp only [PRes.ok.injEq, Option.some.injEq] at h
       obtain ⟨hn, -⟩ := h
       subst hn
       trivial)
    | simp at h

theorem drop_stmt_alters (tokens : List Token) (s : PSt) (n : nodes.Node) (s' : PSt)
    (h : drop_stmt tokens s = .ok (some n) s') : n.altersAtMostOne := by
  unfold drop_stmt at h
  dsimp only at h
  split at h
  · exact drop_stmt_tail_alters _ _ _ _ _ _ h
  · exact drop_stmt_tail_alters _ _ _ _ _ _ h
  · exact drop_stmt_tail_alters _ _ _ _ _ _ h
  · exact drop_stmt_tail_alters _ _ _ _ _ _ h
  · simp at h

theorem analyse_stmt_alters (tokens : List Token) (s : PSt) (n : nodes.Node) (s' : PSt)
    (h : analyse_stmt tokens s = .ok (some n) s') : n.altersAtMostOne := by
  unfold analyse_stmt at h
  dsimp only at h
  repeat' split at h
  all_goals
    first
    | (simp only [PRes.ok.injEq, Option.some.injEq] at h
       obtain ⟨hn, -⟩ := h
       subst hn
       trivial)
    | simp at h

theorem detach_stmt_alters (tokens : List Token) (s : PSt) (n : nodes.Node) (s' : PSt)
    (h : detach_stmt tokens s = .ok (some n) s') : n.altersAtMostOne := by
  unfold detach_stmt at h
  dsimp only at h
  rcases hci : consume_ident tokens
      (if (cur tokens (advance tokens s)).ttype = Ty.Keyword .DATABASE then
        advance tokens (advance tokens s) else advance tokens s) with ⟨r, s3⟩
  rw [hci] at h
  cases r with
  | none => simp at h
  | some nm =>
    simp only [PRes.ok.injEq, Option.some.injEq] at h
    obtain ⟨hn, -⟩ := h
    subst hn
    trivial

theorem rollback_stmt_alters (tokens : List Token) (s : PSt) (n : nodes.Node) (s' : PSt)
    (h : rollback_stmt tokens s = .ok (some n) s') : n.altersAtMostOne := by
  unfold rollback_stmt at h
  dsimp only at h
  repeat' split at h
  all_goals
    first
    | (simp only [PRes.ok.injEq, Option.some.injEq] at h
       obtain ⟨hn, -⟩ := h
       subst hn
       trivial)
    | simp at h

theorem commit_stmt_alters (tokens : List Token) (s : PSt) (n : nodes.Node) (s' : PSt)
    (h : commit_stmt tokens s = .ok (some n) s') : n.altersAtMostOne := by
  unfold commit_stmt at h
  dsimp only at h
  simp only [PRes.ok.injEq, Option.some.injEq] at h
  obtain ⟨hn, -⟩ := h
  subst hn
  trivial

theorem begin_stmt_alters (tokens : List Token) (s : PSt) (n : nodes.Node) (s' : PSt)
    (h : begin_stmt tokens s = .ok (some n) s') : n.altersAtMostOne := by
  unfold begin_stmt at h
  dsimp only at h
  repeat' split at h
  all_goals
    first
    | (simp only [PRes.ok.injEq, Option.some.injEq] at h
       obtain ⟨hn, -⟩ := h
       subst hn
       trivial)
    | simp at h

theorem vacuum_stmt_alters (tokens : List Token) (s : PSt) (n : nodes.Node) (s' : PSt)
    (h : vacuum_stmt tokens s = .ok (some n) s') : n.altersAtMostOne := by
  unfold vacuum_stmt at h
  dsimp only at h
  repeat' split at h
  all_goals
    first
    | (simp only [PRes.ok.injEq, Option.some.injEq] at h
       obtain ⟨hn, -⟩ := h
       subst hn
       trivial)
    | simp at h

theorem sql_stmt_alters (tokens : List Token) (fuel : Nat) (s : PSt)
    (n : nodes.Node) (s' : PSt)
    (h : sql_stmt tokens fuel s = .ok (some n) s') : n.altersAtMostOne := by
  unfold sql_stmt at h
  split at h
  case h_1 => exact pragma_stmt_alters _ _ _ _ h
  case h_2 => exact alter_stmt_alters _ _ _ _ _ h
  case h_3 => exact attach_stmt_alters _ _ _ _ h
  case h_4 => exact reindex_stmt_alters _ _ _ _ h
  case h_5 => exact release_stmt_alters _ _ _ _ h
  case h_6 => exact savepoint_stmt_alters _ _ _ _ h
  case h_7 => exact drop_stmt_alters _ _ _ _ h
  case h_8 => exact analyse_stmt_alters _ _ _ _ h
  case h_9 => exact detach_stmt_alters _ _ _ _ h
  case h_10 => exact rollback_stmt_alters _ _ _ _ h
  case h_11 => exact commit_stmt_alters _ _ _ _ h
  case h_12 => exact commit_stmt_alters _ _ _ _ h
  case h_13 => exact begin_stmt_alters _ _ _ _ h
  case h_14 => exact vacuum_stmt_alters _ _ _ _ h
  all_goals simp at h

theorem sql_stmt_prefix_alters (tokens : List Token) (fuel : Nat) (s : PSt)
    (n : nodes.Node) (s' : PSt)
    (h : sql_stmt_prefix tokens fuel s = .ok (some n) s') : n.altersAtMostOne := by
  unfold sql_stmt_prefix at h
  split at h
  · dsimp only at h
    split at h
    · simp at h
    · simp at h
    · simp at h
    · rename_i child s3 heq
      simp only [PRes.ok.injEq, Option.some.injEq] at h
      obtain ⟨hn, -⟩ := h
      subst hn
      have hc := sql_stmt_alters _ _ _ _ _ heq
      simpa [nodes.Node.altersAtMostOne] using hc
  · exact sql_stmt_alters _ _ _ _ _ h

theorem sql_stmt_list_alters (tokens : List Token) (fuel : Nat) :
    ∀ (s : PSt) (ns : List nodes.Node) (s' : PSt),
      sql_stmt_list tokens fuel s = .ok ns s' → ∀ n ∈ ns, n.altersAtMostOne := by
  induction fuel with
  | zero =>
    intro s ns s' h
    simp [sql_stmt_list] at h
  | succ fuel ih =>
    intro s ns s' h
    unfold sql_stmt_list at h
    split at h
    · split at h
      · dsimp only at h
        split at h
        · exact ih _ _ _ h
        · split at h
          · simp at h
          · simp at h
          · rename_i stmt? s2 heq
            split at h
            · rename_i rest s3 hrest
              simp only [PRes.ok.injEq] at h
              obtain ⟨hns, -⟩ := h
              subst hns
              intro n hn
              rw [List.mem_append] at hn
              rcases hn with hn | hn
              · cases stmt? with
                | none => simp at hn
                | some m =>
                  simp only [Option.toList_some, List.mem_singleton] at hn
                  subst hn
                  exact sql_stmt_prefix_alters _ _ _ _ _ heq
              · exact ih _ _ _ hrest n hn
            · simp at h
            · simp at h
      · split at h
        · simp at h
        · simp at h
        · rename_i stmt? s2 heq
          split at h
          · rename_i rest s3 hrest
            simp only [PRes.ok.injEq] at h
            obtain ⟨hns, -⟩ := h
            subst hns
            intro n hn
            rw [List.mem_append] at hn
            rcases hn with hn | hn
            · cases stmt? with
              | none => simp at hn
              | some m =>
                simp only [Option.toList_some, List.mem_singleton] at hn
                subst hn
                exact sql_stmt_prefix_alters _ _ _ _ _ heq
            · exact ih _ _ _ hrest n hn
          · simp at h
          · simp at h
    · simp only [PRes.ok.injEq] at h
      obtain ⟨hns, -⟩ := h
      subst hns
      intro n hn
      simp at hn

theorem parse_alters (tokens : List Token) (fuel : Nat)
    (ns : List nodes.Node) (s' : PSt)
    (h : parse tokens fuel = .ok ns s') : ∀ n ∈ ns, n.altersAtMostOne := by
  unfold parse at h
  exact sql_stmt_list_alters tokens fuel _ _ _ h

end Parser
end Sqleibniz

namespace Sqleibniz

/-- C1: the specification claims that no parser path is fatal and that an
input reaching the expression sub-parser with an identifier atom, such as
"ATTACH a AS b;", still returns normally. In the source, `Parser::expr`
reaches `todo!("[schema-name.][table-name.]<column-name>")` on an
identifier atom that is not a function call, aborting the process; the
embedding models that abort as the `.panic` outcome, which `parse` is
shown to reach on exactly that input. -/
theorem C1_expr_ident_atom_is_fatal :
    Parser.parse (Lexer.run "ATTACH a AS b;".data).1 100 =
      Parser.PRes.panic "[schema-name.][table-name.]<column-name>" := by
  rfl

/-- C2: for every input character sequence, the dispatch loop of
`Lexer::run` completes within the fuel `run` allots it (one step per
remaining input position plus one), so the lexer always returns a token
list and a diagnostic list: the embedding gives the lexer no panic
outcome, and the loop cannot run forever. -/
theorem C2_lexer_run_total (src : List Char) :
    ∃ out, Lexer.lexLoopF src (src.length + 1) ⟨0, 0, 0⟩ = some out :=
  Option.isSome_iff_exists.mp (Lexer.run_loop_total src)

/-- C3 (counterexample): parsing the token stream of "VACUUM" produces
three diagnostics, of which exactly one has rule Semicolon, and that
diagnostic's suggested fix inserts ";" at offset 0 — the end offset of
the parser's end-of-input position — while the VACUUM keyword token, the
previous token, ends at offset 6. This refutes the claimed insertion at
the end-of-token offset of the VACUUM token. -/
theorem C3_semicolon_fix_not_at_previous_token_end :
    (Parser.parse (Lexer.run "VACUUM".data).1 100).errorsOf =
      [⟨0, .Syntax, 0, 0, none⟩, ⟨0, .Syntax, 0, 0, none⟩,
       ⟨0, .Semicolon, 0, 0, some ⟨";", 0⟩⟩] ∧
    (Lexer.run "VACUUM".data).1 = [⟨.Keyword .VACUUM, 0, 6, 0⟩] :=
  ⟨rfl, rfl⟩

/-- C3 (amended): parsing the token stream of "VACUUM" reports exactly one
diagnostic with rule Semicolon, and its suggested fix inserts ";" at the
end offset of the token at the parser's position when the semicolon is
consumed — at end of input that is offset 0, not the end offset of the
previous (VACUUM) token. -/
theorem C3_amended_semicolon_fix_at_current_position :
    ((Parser.parse (Lexer.run "VACUUM".data).1 100).errorsOf.filter
        (fun e => decide (e.rule = Rule.Semicolon))) =
      [⟨0, .Semicolon, 0, 0, some ⟨";", 0⟩⟩] := by
  rfl

/-- C4: lexing then parsing the directive input yields exactly one AST
node — an Explain whose child is a Vacuum — and both the lexer and the
parser report no diagnostics: the expect directive suppresses the
following statement up to and including its terminating semicolon. -/
theorem C4_expect_directive_suppresses_statement :
    Parser.parse
        (Lexer.run ("-- @sqleibniz::expect\nVACUUM 25;\nEXPLAIN VACUUM;").data).1 100 =
      Parser.PRes.ok
        [nodes.Node.Explain ⟨.Keyword .EXPLAIN, 0, 7, 2⟩
          (nodes.Node.Vacuum ⟨.Keyword .VACUUM, 8, 14, 2⟩ none none)]
        ⟨7, []⟩ ∧
    (Lexer.run ("-- @sqleibniz::expect\nVACUUM 25;\nEXPLAIN VACUUM;").data).2 = [] :=
  ⟨rfl, rfl⟩

/-- C5 (counterexample): on the token stream of "ALTER TABLE t DROP;" the
parser returns an Alter node with every alternative field null —
`consume_ident` finds a semicolon instead of a column name and leaves
`drop_column` unset — so a returned Alter node can set zero alternatives,
refuting that exactly one is always populated. -/
theorem C5_alter_node_with_zero_alternatives :
    Parser.parse (Lexer.run "ALTER TABLE t DROP;".data).1 100 =
      Parser.PRes.ok
        [nodes.Node.Alter
          { t := ⟨.Keyword .ALTER, 0, 5, 0⟩, target := .Table "t",
            rename_to := none, rename_column_target := none,
            new_column_name := none, add_column := none, drop_column := none }]
        ⟨5, [⟨0, .Syntax, 18, 18, none⟩, ⟨0, .Syntax, 0, 0, none⟩,
             ⟨0, .Semicolon, 0, 0, some ⟨";", 0⟩⟩]⟩ ∧
    nodes.Alter.altCount
        { t := ⟨.Keyword .ALTER, 0, 5, 0⟩, target := .Table "t",
          rename_to := none, rename_column_target := none,
          new_column_name := none, add_column := none, drop_column := none } = 0 :=
  ⟨rfl, rfl⟩

/-- C5 (amended): every Alter node the parser returns sets at most one of
the alternatives rename_to, the (rename_column_target, new_column_name)
pair — counted as one alternative, populated when either of its fields
is — add_column and drop_column; the parser can return an Alter with no
alternative set, but never with two or more. -/
theorem C5_amended_alter_sets_at_most_one_alternative (tokens : List Token)
    (fuel : Nat) (ns : List nodes.Node) (s' : Parser.PSt)
    (h : Parser.parse tokens fuel = Parser.PRes.ok ns s') :
    ∀ n ∈ ns, n.altersAtMostOne :=
  Parser.parse_alters tokens fuel ns s' h

/-- C5 witness: the amended claim instantiated on the token stream of
"ALTER TABLE t RENAME TO y;". -/
theorem C5_amended_alter_witness :
    nodes.Node.altersAtMostOne
      (nodes.Node.Alter
        { t := ⟨.Keyword .ALTER, 0, 5, 0⟩, target := .Table "t",
          rename_to := some "y", rename_column_target := none,
          new_column_name := none, add_column := none, drop_column := none }) :=
  C5_amended_alter_sets_at_most_one_alternative
    (Lexer.run "ALTER TABLE t RENAME TO y;".data).1 100 _ ⟨7, []⟩ rfl
    (nodes.Node.Alter
      { t := ⟨.Keyword .ALTER, 0, 5, 0⟩, target := .Table "t",
        rename_to := some "y", rename_column_target := none,
        new_column_name := none, add_column := none, drop_column := none })
    (List.Mem.head _)

/-- C6: numeric literal conversion. "1_000.12_000e+3_5" lexes to a single
Number token whose exact decimal value is 1.00012e38; "0xABCDEF" to a
single Number token of value 11259375; ".0" to a single Number token of
value 0; and "0x" produces no token and one InvalidNumericLiteral
diagnostic. Underscores are stripped before conversion and hex literals
go through 64-bit signed integer parsing; the token payload is the exact
decimal ⟨mantissa, exponent⟩ the source's f64 conversion denotes, and its
rational value is compared against the claimed constants. -/
theorem C6_numeric_literal_conversion :
    (Lexer.run "1_000.12_000e+3_5".data =
        ([⟨.Number ⟨100012000, 30⟩, 0, 17, 0⟩], []) ∧
      Dec.toRat ⟨100012000, 30⟩ = (1.00012e38 : ℚ)) ∧
    (Lexer.run "0xABCDEF".data = ([⟨.Number ⟨11259375, 0⟩, 0, 8, 0⟩], []) ∧
      Dec.toRat ⟨11259375, 0⟩ = (11259375 : ℚ)) ∧
    (Lexer.run ".0".data = ([⟨.Number ⟨0, -1⟩, 0, 2, 0⟩], []) ∧
      Dec.toRat ⟨0, -1⟩ = (0 : ℚ)) ∧
    Lexer.run "0x".data = ([], [⟨0, .InvalidNumericLiteral, 0, 2, none⟩]) := by
  refine ⟨⟨by rfl, ?_⟩, ⟨by rfl, ?_⟩, ⟨by rfl, ?_⟩, by rfl⟩
  · norm_num [Dec.toRat, pow10, show Int.toNat 30 = 30 from rfl]
  · norm_num [Dec.toRat, pow10, show Int.toNat 0 = 0 from rfl]
  · norm_num [Dec.toRat]

/-- C7: blob literal conversion. "X''" lexes to a single Blob token with
empty payload; "X'1234567'" to a single Blob token carrying the characters
of "1234567" (the source stores the string's bytes; the embedding keeps
them as characters); and "X'12Y'" produces no token and one InvalidBlob
diagnostic whose span is offset 4 (both ends), the position of 'Y', the
first non-hexadecimal character of the input. -/
theorem C7_blob_literal_conversion :
    Lexer.run "X''".data = ([⟨.Blob [], 1, 3, 0⟩], []) ∧
    Lexer.run "X'1234567'".data = ([⟨.Blob "1234567".data, 1, 10, 0⟩], []) ∧
    Lexer.run "X'12Y'".data = ([], [⟨0, .InvalidBlob, 4, 4, none⟩]) ∧
    "X'12Y'".data[4]? = some 'Y' ∧ isAsciiHexdigit 'Y' = false :=
  ⟨rfl, rfl, rfl, rfl, rfl⟩

/-- C8: string literal conversion. "'text'" lexes to a single String token
with payload "text"; "''" to a single String token with empty payload; and
the unterminated inputs "'" and "'unterminated" followed by a newline each
produce no token and exactly one UnterminatedString diagnostic whose
improved-line suggested fix is the lone string made of one quote. -/
theorem C8_string_literal_conversion :
    Lexer.run "'text'".data = ([⟨.String "text", 0, 6, 0⟩], []) ∧
    Lexer.run "''".data = ([⟨.String "", 0, 2, 0⟩], []) ∧
    Lexer.run "'".data = ([], [⟨0, .UnterminatedString, 0, 2, some ⟨"'", 2⟩⟩]) ∧
    Lexer.run "'unterminated\n".data =
      ([], [⟨0, .UnterminatedString, 0, 14, some ⟨"'", 14⟩⟩]) :=
  ⟨rfl, rfl, rfl, rfl⟩

/-- C9: on empty input the lexer returns no tokens and exactly one
NoContent diagnostic; on any non-empty input whose dispatch loop produces
no tokens and no diagnostics, it returns exactly one NoStatements
diagnostic; and on no input does it return both an empty token list and
an empty diagnostic list. -/
theorem C9_no_content_and_no_statements :
    (Lexer.run [] = ([], [⟨0, .NoContent, 0, 0, none⟩])) ∧
    (∀ src : List Char, src ≠ [] →
      ∀ stf : Lexer.LexState,
        Lexer.lexLoopF src (src.length + 1) ⟨0, 0, 0⟩ = some ([], [], stf) →
        Lexer.run src = ([], [⟨stf.line, .NoStatements, 0, stf.linePos, none⟩])) ∧
    (∀ src : List Char, ¬((Lexer.run src).1 = [] ∧ (Lexer.run src).2 = [])) := by
  refine ⟨rfl, ?_, ?_⟩
  · intro src hne stf hloop
    have hemp : ¬(src.isEmpty = true) := by
      simpa [List.isEmpty_iff] using hne
    unfold Lexer.run
    rw [if_neg hemp, hloop]
    rfl
  · intro src
    by_cases hemp : src.isEmpty = true
    · intro hcontra
      have h2 := hcontra.2
      unfold Lexer.run at h2
      rw [if_pos hemp] at h2
      simp at h2
    · have hs := Lexer.run_loop_total src
      rcases hout : Lexer.lexLoopF src (src.length + 1) ⟨0, 0, 0⟩ with
        _ | ⟨⟨toks, errs, stf⟩⟩
      · rw [hout] at hs
        simp at hs
      · intro hcontra
        obtain ⟨h1, h2⟩ := hcontra
        unfold Lexer.run at h1 h2
        rw [if_neg hemp, hout] at h1
        rw [if_neg hemp, hout] at h2
        replace h1 : (if (toks.isEmpty && errs.isEmpty) = true then
            (([] : List Token),
             [({ line := stf.line, rule := Rule.NoStatements, start := 0,
                 endPos := stf.linePos, improved_line := none } : Error)])
            else (toks, errs)).1 = [] := h1
        replace h2 : (if (toks.isEmpty && errs.isEmpty) = true then
            (([] : List Token),
             [({ line := stf.line, rule := Rule.NoStatements, start := 0,
                 endPos := stf.linePos, improved_line := none } : Error)])
            else (toks, errs)).2 = [] := h2
        by_cases hboth : (toks.isEmpty && errs.isEmpty) = true
        · rw [if_pos hboth] at h2
          simp at h2
        · rw [if_neg hboth] at h1
          rw [if_neg hboth] at h2
          dsimp only at h1 h2
          subst h1
          subst h2
          simp at hboth

/-- C9 witness: the second part instantiated on the whitespace-only input
" " (whose loop produces nothing) and the third on the input "X'12Y'"
(whose token list is empty but whose diagnostic list is not). -/
theorem C9_witness :
    Lexer.run " ".data = ([], [⟨0, .NoStatements, 0, 1, none⟩]) ∧
    ¬((Lexer.run "X'12Y'".data).1 = [] ∧ (Lexer.run "X'12Y'".data).2 = []) := by
  obtain ⟨-, h2, h3⟩ := C9_no_content_and_no_statements
  exact ⟨h2 " ".data (by decide) ⟨1, 0, 1⟩ rfl, h3 "X'12Y'".data⟩

/-- C10: whenever the dispatch loop stands at a blob opener — an X or x
followed by a quote — whose terminated string content contains a
non-hexadecimal character, the iteration pushes the InvalidBlob
diagnostic and breaks out of the whole loop: for every remaining input
and every fuel value, the loop returns that single diagnostic, the state
after the string, and no tokens at all, so nothing after the blob literal
is ever tokenized. -/
theorem C10_invalid_blob_stops_the_lexer (src : List Char)
    (st : Lexer.LexState) (fuel : Nat) (c : Char)
    (hlt : st.pos < src.length)
    (hc : src[st.pos]? = some c) (hx : c = 'X' ∨ c = 'x')
    (hq : src[st.pos + 1]? = some '\'')
    (strTok : Token) (st2 : Lexer.LexState) (s : String)
    (hstr : Lexer.string src (Lexer.advance src st) = (.ok strTok, st2))
    (hty : strTok.ttype = .String s) (idx : Nat)
    (hidx : s.data.findIdx? (fun ch => !(isAsciiHexdigit ch)) = some idx) :
    Lexer.lexLoopF src (fuel + 1) st =
      some ([], [{ line := st2.line, rule := .InvalidBlob,
                   start := st.linePos + 2 + idx,
                   endPos := st.linePos + 2 + idx, improved_line := none }],
            st2) := by
  have hblob : Lexer.lexStepBlob src st =
      ([], [{ line := st2.line, rule := .InvalidBlob,
              start := st.linePos + 2 + idx,
              endPos := st.linePos + 2 + idx, improved_line := none }],
       st2, false) := by
    unfold Lexer.lexStepBlob
    rw [if_pos hq]
    simp only [hstr, hty, hidx]
  have hstep : Lexer.lexStep src st =
      ([], [{ line := st2.line, rule := .InvalidBlob,
              start := st.linePos + 2 + idx,
              endPos := st.linePos + 2 + idx, improved_line := none }],
       st2, false) := by
    rcases hx with rfl | rfl
    · unfold Lexer.lexStep
      rw [hc]
      exact hblob
    · unfold Lexer.lexStep
      rw [hc]
      exact hblob
  rw [Lexer.lexLoopF, if_pos hlt, hstep]

/-- C10 witness: instantiation at the input "X'12Y'VACUUM;" — the
malformed blob is followed by a well-formed statement, yet the loop
returns no tokens and only the InvalidBlob diagnostic. -/
theorem C10_invalid_blob_witness :
    Lexer.lexLoopF "X'12Y'VACUUM;".data 14 ⟨0, 0, 0⟩ =
      some ([], [⟨0, .InvalidBlob, 4, 4, none⟩], ⟨5, 0, 5⟩) :=
  C10_invalid_blob_stops_the_lexer "X'12Y'VACUUM;".data ⟨0, 0, 0⟩ 13 'X'
    (by decide) rfl (Or.inl rfl) rfl ⟨.String "12Y", 1, 6, 0⟩ ⟨5, 0, 5⟩ "12Y"
    rfl rfl 2 rfl

end Sqleibniz
